import Mathlib

/-!
# SGAD infrastructure: MongoDB bootstrap scripts

Verification development for the two mongo shell scripts of the repository,
`db/mongo/init-certificados.js` and `db/mongo/init.js`.

Each script is a straight-line sequence of shell calls on one database:
`db.createCollection(name, {validator})`, `db.<coll>.createIndex(key, options)`,
`db.<coll>.insertMany([...])` and `db.<coll>.insertOne({...})`.  The scripts are
embedded as lists of commands (`Cmd`), transcribed call by call, and executed by
an interpreter (`exec`, `runCmds`) over an explicit database state.

A script is run as a script file of the shell (mongosh): a call that is rejected
throws, nothing in the scripts catches, so the first error ends the run; the calls
after it are not executed and what was written before it stays.

The store is modelled as far as the scripts use it: `$jsonSchema` validators
(`bsonType`, `required`, `properties`, `enum`), unique and sparse indexes, the
implicit unique index on `_id`, ordered `insertMany`, implicit creation of a
collection by a write to it.  What a run takes from outside (the clock behind
`new Date()`, the generated `ObjectId`s, the answer of the store to
`createCollection` for a collection that exists) is a parameter, `Env`.  The two
trailing `print` calls of each script write to the console only and are left out.
-/

namespace Mongo

/-! ## Values and documents -/

/-- BSON values as the scripts write them.  `num n` is a JavaScript number with an
integral value, `frac m e` the non-integral decimal literal `m / 10^e`
(`0.02` is `frac 2 2`), `date ms` a `Date` of `ms` milliseconds since the epoch,
`oid n` a generated `ObjectId`. -/
inductive Value where
  | null
  | str (s : String)
  | num (n : Int)
  | frac (m : Int) (e : Nat)
  | bool (b : Bool)
  | date (ms : Int)
  | oid (n : Nat)
  | obj (fields : List (String × Value))
  | arr (items : List Value)

/-- A document is the field list of an object, in the order written. -/
abbrev Document := List (String × Value)

mutual
/-- Equality of values, field order included. -/
def Value.beq : Value → Value → Bool
  | .null, .null => true
  | .str a, .str b => a == b
  | .num a, .num b => a == b
  | .frac a e, .frac b f => a == b && e == f
  | .bool a, .bool b => a == b
  | .date a, .date b => a == b
  | .oid a, .oid b => a == b
  | .obj a, .obj b => Value.beqFields a b
  | .arr a, .arr b => Value.beqList a b
  | _, _ => false
/-- Equality of field lists. -/
def Value.beqFields : List (String × Value) → List (String × Value) → Bool
  | [], [] => true
  | (k, v) :: r, (k2, v2) :: r2 => k == k2 && Value.beq v v2 && Value.beqFields r r2
  | _, _ => false
/-- Equality of value lists. -/
def Value.beqList : List Value → List Value → Bool
  | [], [] => true
  | v :: r, v2 :: r2 => Value.beq v v2 && Value.beqList r r2
  | _, _ => false
end

/-- The BSON type name of a value, as the shell (mongosh) encodes it: a number
with an integral value in the 32-bit range is stored as `int`, any other number
as `double`. -/
def bsonTypeOf : Value → String
  | .null => "null"
  | .str _ => "string"
  | .num n => if -2147483648 ≤ n ∧ n ≤ 2147483647 then "int" else "double"
  | .frac _ _ => "double"
  | .bool _ => "bool"
  | .date _ => "date"
  | .oid _ => "objectId"
  | .obj _ => "object"
  | .arr _ => "array"

/-- Field of a document, first occurrence. -/
def getField (k : String) : Document → Option Value
  | [] => none
  | (k2, v) :: r => if k2 == k then some v else getField k r

/-- Whether a document has the field. -/
def hasField (k : String) (d : Document) : Bool := (getField k d).isSome

/-! ## Validators -/

/-- One node of a `$jsonSchema` validator.  `bsonType` is `none` when the keyword
is absent, a one-element list for `bsonType: "string"`, the list itself for
`bsonType: [...]`; `required` and `properties` are empty when absent; `enum` is
`none` when absent. -/
inductive Schema where
  | mk (bsonType : Option (List String)) (required : List String)
      (properties : List (String × Schema)) (enum : Option (List Value))

/-- The `bsonType` keyword of a node. -/
def Schema.bsonType : Schema → Option (List String)
  | .mk t _ _ _ => t

/-- The `required` keyword of a node. -/
def Schema.required : Schema → List String
  | .mk _ r _ _ => r

/-- The `properties` keyword of a node. -/
def Schema.properties : Schema → List (String × Schema)
  | .mk _ _ p _ => p

/-- The `enum` keyword of a node. -/
def Schema.enum : Schema → Option (List Value)
  | .mk _ _ _ e => e

/-- The node `{ bsonType: t }`. -/
def Schema.ofType (t : String) : Schema := .mk (some [t]) [] [] none

/-- The node `{ bsonType: [t1, t2, ...] }`. -/
def Schema.ofTypes (ts : List String) : Schema := .mk (some ts) [] [] none

/-- The node `{ enum: [s1, s2, ...] }` with string members. -/
def Schema.ofEnum (vs : List String) : Schema := .mk none [] [] (some (vs.map Value.str))

/-- The node `{ bsonType: "object", required: [...], properties: {...} }`. -/
def Schema.object (req : List String) (props : List (String × Schema)) : Schema :=
  .mk (some ["object"]) req props none

/-- Sub-schema declared for a property name. -/
def lookupProp (k : String) : List (String × Schema) → Option Schema
  | [] => none
  | (k2, s) :: r => if k2 == k then some s else lookupProp k r

/-- The `bsonType` keyword holds of a value. -/
def typeOk (t : Option (List String)) (v : Value) : Bool :=
  match t with
  | none => true
  | some ts => ts.contains (bsonTypeOf v)

/-- The `enum` keyword holds of a value. -/
def enumOk (e : Option (List Value)) (v : Value) : Bool :=
  match e with
  | none => true
  | some vs => vs.any (fun x => Value.beq x v)

/-- The `required` keyword holds of a value (it constrains objects only). -/
def requiredOk (req : List String) (v : Value) : Bool :=
  match v with
  | .obj fields => req.all (fun k => hasField k fields)
  | _ => true

mutual
/-- A value satisfies a schema node: its type, its enumeration, its required
fields and, for every declared property the object carries, the property's own
node.  Fields that are not declared are accepted. -/
def validate : Schema → Value → Bool
  | .mk t req props e, v =>
    typeOk t v && enumOk e v && requiredOk req v &&
      (match v with
       | .obj fields => validateProps props fields
       | _ => true)
/-- Every declared property that the object carries satisfies its node. -/
def validateProps : List (String × Schema) → Document → Bool
  | [], _ => true
  | (k, s) :: r, fields =>
    (match getField k fields with
     | none => true
     | some x => validate s x) && validateProps r fields
end

mutual
/-- Equality of schema nodes. -/
def Schema.beq : Schema → Schema → Bool
  | .mk t r p e, .mk t2 r2 p2 e2 =>
    t == t2 && r == r2 && Schema.beqProps p p2 &&
      (match e, e2 with
       | none, none => true
       | some a, some b => Value.beqList a b
       | _, _ => false)
/-- Equality of property lists. -/
def Schema.beqProps : List (String × Schema) → List (String × Schema) → Bool
  | [], [] => true
  | (k, s) :: r, (k2, s2) :: r2 => k == k2 && Schema.beq s s2 && Schema.beqProps r r2
  | _, _ => false
end

/-! ## Indexes -/

/-- An index: its key pattern (field path and direction, in order) and the two
options the scripts use. -/
structure Index where
  key : List (String × Int)
  unique : Bool
  sparse : Bool
  deriving DecidableEq, Repr

/-- The index every collection has on `_id`. -/
def idIndex : Index := { key := [("_id", 1)], unique := true, sparse := false }

/-- Splits the characters of a field path at the dots; `acc` holds the current
segment reversed. -/
def splitDotsAux : List Char → List Char → List String
  | [], acc => [String.mk acc.reverse]
  | c :: cs, acc =>
    if c = '.' then String.mk acc.reverse :: splitDotsAux cs [] else splitDotsAux cs (c :: acc)

/-- The segments of a dotted field path: `"period.year"` is `["period", "year"]`. -/
def splitPath (p : String) : List String := splitDotsAux p.data []

/-- The value a document holds at a path of segments. -/
def getPath : List String → Value → Option Value
  | [], v => some v
  | k :: ks, .obj fields =>
    (match getField k fields with
     | none => none
     | some v => getPath ks v)
  | _ :: _, _ => none

/-- The value of one key field of an index in a document, `null` when missing.
An array is taken whole, as one value. -/
def keyField (d : Document) (p : String) : Value :=
  (getPath (splitPath p) (.obj d)).getD .null

/-- The key of a document in an index. -/
def keyOf (ix : Index) (d : Document) : List Value := ix.key.map (fun f => keyField d f.1)

/-- Whether the index holds an entry for the document: always, except that a sparse
index skips the documents that have none of its key fields. -/
def indexed (ix : Index) (d : Document) : Bool :=
  !ix.sparse || ix.key.any (fun f => (getPath (splitPath f.1) (.obj d)).isSome)

/-- Whether two documents collide in a unique index. -/
def collide (ix : Index) (d1 d2 : Document) : Bool :=
  indexed ix d1 && indexed ix d2 && Value.beqList (keyOf ix d1) (keyOf ix d2)

/-- No two of the documents collide in the index. -/
def uniqueHolds (ix : Index) : List Document → Bool
  | [] => true
  | d :: r => !(r.any (fun d2 => collide ix d d2)) && uniqueHolds ix r

/-! ## Database state -/

/-- A collection: name, validator (none for a collection created implicitly),
secondary indexes in creation order, documents in insertion order. -/
structure Collection where
  name : String
  validator : Option Schema
  indexes : List Index
  docs : List Document

/-- A database: its collections in creation order. -/
abbrev DB := List Collection

/-- The database with no collection. -/
def emptyDB : DB := []

/-- Collection of that name, if any. -/
def findColl (name : String) : DB → Option Collection
  | [] => none
  | c :: r => if c.name == name then some c else findColl name r

/-- Replaces the collection of the same name, or adds it last. -/
def putColl (c : Collection) : DB → DB
  | [] => [c]
  | x :: r => if x.name == c.name then c :: r else x :: putColl c r

/-- Names of the collections, as `db.getCollectionNames()` lists them. -/
def collectionNames (db : DB) : List String := db.map (fun c => c.name)

/-- The collection a write addresses: the existing one, or a new one without
validator when there is none (implicit creation). -/
def collOrNew (name : String) (db : DB) : Collection :=
  (findColl name db).getD { name := name, validator := none, indexes := [], docs := [] }

/-- Documents of a collection, none when it does not exist. -/
def docsOf (name : String) (db : DB) : List Document :=
  match findColl name db with
  | none => []
  | some c => c.docs

/-- Secondary indexes of a collection, none when it does not exist. -/
def indexesOf (name : String) (db : DB) : List Index :=
  match findColl name db with
  | none => []
  | some c => c.indexes

/-! ## Shell calls -/

/-- Errors a call can raise; each one ends the script. -/
inductive Err where
  | namespaceExists (coll : String)
  | indexOptionsConflict (coll : String) (key : List (String × Int))
  | duplicateKey (coll : String) (key : List (String × Int))
  | documentValidationFailure (coll : String)
  deriving DecidableEq, Repr

/-- The four calls the scripts make, with their arguments evaluated. -/
inductive Cmd where
  | createCollection (name : String) (validator : Schema)
  | createIndex (coll : String) (key : List (String × Int)) (unique sparse : Bool)
  | insertMany (coll : String) (docs : List Document)
  | insertOne (coll : String) (doc : Document)

/-- What a run takes from outside the database: `clock k` is the value of the
`k`-th `new Date()` of the script; `oidBase` is the first `ObjectId` the shell
generates in the run for a document written without `_id`, the following ones
count up from it, as the counter of an `ObjectId` does; `idempotentCreate` tells
how the store answers `createCollection` for a collection that exists: with
success when the options are the same (`true`), or always with the error
`NamespaceExists` (`false`).  Both answers exist among the server versions the
shell talks to. -/
structure Env where
  clock : Nat → Int
  oidBase : Nat
  idempotentCreate : Bool

/-- The `k`-th `ObjectId` generated in a run. -/
def Env.oid (env : Env) (k : Nat) : Nat := env.oidBase + k

/-- State of a run: the database and the number of `ObjectId`s generated so far. -/
structure Run where
  db : DB
  oids : Nat

/-- Whether an existing collection has the validator of the call. -/
def sameOptions (c : Collection) (v : Schema) : Bool :=
  match c.validator with
  | none => false
  | some s => Schema.beq s v

/-- The call `db.createCollection(name, {validator: {$jsonSchema: v}})`: the
collection is added last; for a collection that exists the answer depends on the
store (see `Env`). -/
def createCollection (idem : Bool) (name : String) (v : Schema) (db : DB) : DB × Option Err :=
  match findColl name db with
  | none => (db ++ [{ name := name, validator := some v, indexes := [], docs := [] }], none)
  | some c => if idem && sameOptions c v then (db, none) else (db, some (.namespaceExists name))

/-- The call `db.<coll>.createIndex(key, {unique, sparse})`: nothing to do when the same
index exists, an error when an index of that key pattern exists with other
options or when the documents present break a unique index. -/
def createIndex (coll : String) (key : List (String × Int)) (unique sparse : Bool)
    (db : DB) : DB × Option Err :=
  let c := collOrNew coll db
  let ix : Index := { key := key, unique := unique, sparse := sparse }
  match c.indexes.find? (fun i => i.key == key) with
  | some i => if i == ix then (db, none) else (db, some (.indexOptionsConflict coll key))
  | none =>
    if unique && !uniqueHolds ix c.docs then (db, some (.duplicateKey coll key))
    else (putColl { c with indexes := c.indexes ++ [ix] } db, none)

/-- The document as written to the store: with a generated `_id` in front when it
has none. -/
def withId (env : Env) (k : Nat) (d : Document) : Document × Nat :=
  if hasField "_id" d then (d, k) else (("_id", .oid (env.oid k)) :: d, k + 1)

/-- The validator of the collection accepts the document. -/
def accepts (c : Collection) (d : Document) : Bool :=
  match c.validator with
  | none => true
  | some s => validate s (.obj d)

/-- The first unique index (that on `_id` first) in which the document collides
with a document of the collection. -/
def violated (c : Collection) (d : Document) : Option Index :=
  (idIndex :: c.indexes.filter (fun ix => ix.unique)).find?
    (fun ix => c.docs.any (fun d2 => collide ix d2 d))

/-- Insertion of one document: `_id` generation, validation, unique indexes, then
the document is added last. -/
def insertDoc (env : Env) (coll : String) (d : Document) (r : Run) : Run × Option Err :=
  let c := collOrNew coll r.db
  let (d2, k2) := withId env r.oids d
  if !accepts c d2 then
    ({ db := r.db, oids := k2 }, some (.documentValidationFailure coll))
  else
    match violated c d2 with
    | some ix => ({ db := r.db, oids := k2 }, some (.duplicateKey coll ix.key))
    | none => ({ db := putColl { c with docs := c.docs ++ [d2] } r.db, oids := k2 }, none)

/-- Ordered insertion of a list: stops at the first document that is rejected, the
documents before it stay. -/
def insertDocs (env : Env) (coll : String) : List Document → Run → Run × Option Err
  | [], r => (r, none)
  | d :: ds, r =>
    match insertDoc env coll d r with
    | (r2, none) => insertDocs env coll ds r2
    | (r2, some e) => (r2, some e)

/-- One call. -/
def exec (env : Env) : Cmd → Run → Run × Option Err
  | .createCollection name v, r =>
    let res := createCollection env.idempotentCreate name v r.db
    ({ db := res.1, oids := r.oids }, res.2)
  | .createIndex coll key u s, r =>
    let res := createIndex coll key u s r.db
    ({ db := res.1, oids := r.oids }, res.2)
  | .insertMany coll docs, r => insertDocs env coll docs r
  | .insertOne coll doc, r => insertDoc env coll doc r

/-- The calls in order, up to the first error. -/
def runCmds (env : Env) : List Cmd → Run → Run × Option Err
  | [], r => (r, none)
  | c :: cs, r =>
    match exec env c r with
    | (r2, none) => runCmds env cs r2
    | (r2, some e) => (r2, some e)

/-- A script: the database it selects with `db.getSiblingDB` and its calls, given
the values of its `new Date()` expressions. -/
structure Script where
  database : String
  commands : (Nat → Int) → List Cmd

/-- One run of a script on a state of its database: the state left and the error
that ended the run, if any. -/
def runScript (env : Env) (s : Script) (db : DB) : DB × Option Err :=
  let res := runCmds env (s.commands env.clock) { db := db, oids := 0 }
  (res.1.db, res.2)

/-- State after the runs of the given environments, one after the other. -/
def runTimes (s : Script) : List Env → DB → DB
  | [], db => db
  | env :: envs, db => runTimes s envs (runScript env s db).1

end Mongo

/-! ## `db/mongo/init-certificados.js` -/

namespace InitCertificados

open Mongo

/-- Validator of `certificates` (lines 14-38). -/
def certificatesValidator : Schema :=
  Schema.object ["refereeId", "certificateType", "issuedDate"]
    [ ("refereeId", Schema.ofType "string"),
      ("certificateType", Schema.ofEnum ["license", "medical", "training", "insurance", "other"]),
      ("certificateNumber", Schema.ofType "string"),
      ("issuedDate", Schema.ofType "date"),
      ("expiryDate", Schema.ofType "date"),
      ("issuingAuthority", Schema.ofType "string"),
      ("documentUrl", Schema.ofType "string"),
      ("status", Schema.ofEnum ["active", "expired", "revoked", "pending"]),
      ("metadata", Schema.ofType "object"),
      ("createdAt", Schema.ofType "date"),
      ("updatedAt", Schema.ofType "date") ]

/-- Validator of `referee_documents` (lines 44-65). -/
def refereeDocumentsValidator : Schema :=
  Schema.object ["refereeId", "documentType", "uploadedAt"]
    [ ("refereeId", Schema.ofType "string"),
      ("documentType", Schema.ofEnum ["id_card", "contract", "tax_form", "bank_info", "other"]),
      ("fileName", Schema.ofType "string"),
      ("fileUrl", Schema.ofType "string"),
      ("fileSize", Schema.ofType "int"),
      ("mimeType", Schema.ofType "string"),
      ("uploadedAt", Schema.ofType "date"),
      ("uploadedBy", Schema.ofType "string"),
      ("description", Schema.ofType "string"),
      ("tags", Schema.ofType "array") ]

/-- Validator of `processing_logs` (lines 71-87). -/
def processingLogsValidator : Schema :=
  Schema.object ["filename", "status", "processedAt"]
    [ ("filename", Schema.ofType "string"),
      ("status", Schema.ofEnum ["success", "error", "processing"]),
      ("processedAt", Schema.ofType "date"),
      ("recordsProcessed", Schema.ofType "int"),
      ("errors", Schema.ofType "array"),
      ("uploadedBy", Schema.ofType "string"),
      ("processingTime", Schema.ofType "int") ]

/-- Validator of `audit_logs` (lines 93-110). -/
def auditLogsValidator : Schema :=
  Schema.object ["action", "userId", "timestamp"]
    [ ("action", Schema.ofType "string"),
      ("userId", Schema.ofType "string"),
      ("entityType", Schema.ofType "string"),
      ("entityId", Schema.ofType "string"),
      ("changes", Schema.ofType "object"),
      ("ipAddress", Schema.ofType "string"),
      ("userAgent", Schema.ofType "string"),
      ("timestamp", Schema.ofType "date") ]

/-- Validator of `notifications` (lines 116-139). -/
def notificationsValidator : Schema :=
  Schema.object ["userId", "type", "message", "createdAt"]
    [ ("userId", Schema.ofType "string"),
      ("type", Schema.ofEnum ["assignment", "certificate_expiry", "document_required", "system"]),
      ("message", Schema.ofType "string"),
      ("title", Schema.ofType "string"),
      ("read", Schema.ofType "bool"),
      ("createdAt", Schema.ofType "date"),
      ("metadata", Schema.ofType "object") ]

/-- The five `createCollection` calls (lines 14-139). -/
def collectionCmds : List Cmd :=
  [ .createCollection "certificates" certificatesValidator,
    .createCollection "referee_documents" refereeDocumentsValidator,
    .createCollection "processing_logs" processingLogsValidator,
    .createCollection "audit_logs" auditLogsValidator,
    .createCollection "notifications" notificationsValidator ]

/-- The twenty `createIndex` calls (lines 146-176). -/
def indexCmds : List Cmd :=
  [ .createIndex "certificates" [("refereeId", 1)] false false,
    .createIndex "certificates" [("certificateType", 1)] false false,
    .createIndex "certificates" [("status", 1)] false false,
    .createIndex "certificates" [("expiryDate", 1)] false false,
    .createIndex "certificates" [("certificateNumber", 1)] true true,
    .createIndex "referee_documents" [("refereeId", 1)] false false,
    .createIndex "referee_documents" [("documentType", 1)] false false,
    .createIndex "referee_documents" [("uploadedAt", -1)] false false,
    .createIndex "referee_documents" [("tags", 1)] false false,
    .createIndex "processing_logs" [("filename", 1)] false false,
    .createIndex "processing_logs" [("status", 1)] false false,
    .createIndex "processing_logs" [("processedAt", -1)] false false,
    .createIndex "audit_logs" [("userId", 1)] false false,
    .createIndex "audit_logs" [("action", 1)] false false,
    .createIndex "audit_logs" [("timestamp", -1)] false false,
    .createIndex "audit_logs" [("entityType", 1), ("entityId", 1)] false false,
    .createIndex "notifications" [("userId", 1)] false false,
    .createIndex "notifications" [("read", 1)] false false,
    .createIndex "notifications" [("createdAt", -1)] false false,
    .createIndex "notifications" [("type", 1)] false false ]

/-- The certificate of lines 184-198; `new Date("2024-01-15")` and
`new Date("2025-01-15")` are the two fixed instants. -/
def certificateSeed (clock : Nat → Int) : Document :=
  [ ("refereeId", .str "example-referee-id-001"),
    ("certificateType", .str "license"),
    ("certificateNumber", .str "LIC-2024-001"),
    ("issuedDate", .date 1705276800000),
    ("expiryDate", .date 1736899200000),
    ("issuingAuthority", .str "Federación Colombiana de Fútbol"),
    ("status", .str "active"),
    ("metadata", .obj [("level", .str "nacional"), ("sport", .str "futbol")]),
    ("createdAt", .date (clock 0)),
    ("updatedAt", .date (clock 1)) ]

/-- The notification of lines 203-215. -/
def notificationSeed (clock : Nat → Int) : Document :=
  [ ("userId", .str "admin@sgad.com"),
    ("type", .str "system"),
    ("title", .str "Sistema Inicializado"),
    ("message", .str "La base de datos certificados_db ha sido inicializada correctamente"),
    ("read", .bool false),
    ("createdAt", .date (clock 2)),
    ("metadata", .obj [("priority", .str "low"), ("category", .str "system")]) ]

/-- The audit record of lines 219-236. -/
def auditSeed (clock : Nat → Int) : Document :=
  [ ("action", .str "database_initialization"),
    ("userId", .str "system"),
    ("entityType", .str "database"),
    ("entityId", .str "certificados_db"),
    ("changes", .obj [("collections_created",
        .arr [.str "certificates", .str "referee_documents", .str "processing_logs",
              .str "audit_logs", .str "notifications"])]),
    ("ipAddress", .str "localhost"),
    ("userAgent", .str "MongoDB Shell"),
    ("timestamp", .date (clock 3)) ]

/-- The three inserts (lines 183-236). -/
def seedCmds (clock : Nat → Int) : List Cmd :=
  [ .insertMany "certificates" [certificateSeed clock],
    .insertMany "notifications" [notificationSeed clock],
    .insertOne "audit_logs" (auditSeed clock) ]

/-- The script `init-certificados.js`. -/
def script : Script :=
  { database := "certificados_db",
    commands := fun clock => collectionCmds ++ indexCmds ++ seedCmds clock }

end InitCertificados

/-! ## `db/mongo/init.js` -/

namespace Init

open Mongo

/-- Validator of `processing_logs` (lines 10-25). -/
def processingLogsValidator : Schema :=
  Schema.object ["filename", "status", "processedAt"]
    [ ("filename", Schema.ofType "string"),
      ("status", Schema.ofEnum ["success", "error", "processing"]),
      ("processedAt", Schema.ofType "date"),
      ("recordsProcessed", Schema.ofType "int"),
      ("errors", Schema.ofType "array"),
      ("uploadedBy", Schema.ofType "string") ]

/-- Validator of `notifications` (lines 31-47). -/
def notificationsValidator : Schema :=
  Schema.object ["userId", "type", "message", "createdAt"]
    [ ("userId", Schema.ofType "string"),
      ("type", Schema.ofEnum ["assignment", "invoice", "reminder", "system"]),
      ("message", Schema.ofType "string"),
      ("title", Schema.ofType "string"),
      ("read", Schema.ofType "bool"),
      ("createdAt", Schema.ofType "date"),
      ("metadata", Schema.ofType "object") ]

/-- Validator of `invoice_documents` (lines 53-79). -/
def invoiceDocumentsValidator : Schema :=
  Schema.object ["refereeId", "period", "generatedAt"]
    [ ("refereeId", Schema.ofType "string"),
      ("period", Schema.object ["year", "month"]
        [ ("year", Schema.ofType "int"),
          ("month", Schema.ofType "int") ]),
      ("totalAmount", Schema.ofType "decimal"),
      ("matches", Schema.ofType "array"),
      ("pdfPath", Schema.ofType "string"),
      ("qrCode", Schema.ofType "string"),
      ("bankDetails", Schema.ofType "object"),
      ("status", Schema.ofEnum ["generated", "sent", "paid"]),
      ("generatedAt", Schema.ofType "date"),
      ("paidAt", Schema.ofType "date") ]

/-- Validator of `audit_logs` (lines 85-102). -/
def auditLogsValidator : Schema :=
  Schema.object ["action", "userId", "timestamp"]
    [ ("action", Schema.ofType "string"),
      ("userId", Schema.ofType "string"),
      ("entityType", Schema.ofType "string"),
      ("entityId", Schema.ofType "string"),
      ("changes", Schema.ofType "object"),
      ("ipAddress", Schema.ofType "string"),
      ("userAgent", Schema.ofType "string"),
      ("timestamp", Schema.ofType "date") ]

/-- Validator of `system_configuration` (lines 108-122). -/
def systemConfigurationValidator : Schema :=
  Schema.object ["key", "value"]
    [ ("key", Schema.ofType "string"),
      ("value", Schema.ofTypes ["string", "object", "array", "bool", "int", "decimal"]),
      ("description", Schema.ofType "string"),
      ("updatedAt", Schema.ofType "date"),
      ("updatedBy", Schema.ofType "string") ]

/-- The five `createCollection` calls (lines 10-122). -/
def collectionCmds : List Cmd :=
  [ .createCollection "processing_logs" processingLogsValidator,
    .createCollection "notifications" notificationsValidator,
    .createCollection "invoice_documents" invoiceDocumentsValidator,
    .createCollection "audit_logs" auditLogsValidator,
    .createCollection "system_configuration" systemConfigurationValidator ]

/-- The sixteen `createIndex` calls (lines 129-152). -/
def indexCmds : List Cmd :=
  [ .createIndex "processing_logs" [("filename", 1)] false false,
    .createIndex "processing_logs" [("status", 1)] false false,
    .createIndex "processing_logs" [("processedAt", -1)] false false,
    .createIndex "notifications" [("userId", 1)] false false,
    .createIndex "notifications" [("read", 1)] false false,
    .createIndex "notifications" [("createdAt", -1)] false false,
    .createIndex "notifications" [("type", 1)] false false,
    .createIndex "invoice_documents" [("refereeId", 1)] false false,
    .createIndex "invoice_documents" [("period.year", 1), ("period.month", 1)] false false,
    .createIndex "invoice_documents" [("status", 1)] false false,
    .createIndex "invoice_documents" [("generatedAt", -1)] false false,
    .createIndex "audit_logs" [("userId", 1)] false false,
    .createIndex "audit_logs" [("action", 1)] false false,
    .createIndex "audit_logs" [("timestamp", -1)] false false,
    .createIndex "audit_logs" [("entityType", 1), ("entityId", 1)] false false,
    .createIndex "system_configuration" [("key", 1)] true false ]

/-- The configuration document of lines 160-166. -/
def eligibilitySeed (clock : Nat → Int) : Document :=
  [ ("key", .str "eligibility_period_months"),
    ("value", .num 6),
    ("description", .str "Meses que debe pasar para que un árbitro pueda dirigir el mismo equipo"),
    ("updatedAt", .date (clock 0)),
    ("updatedBy", .str "system") ]

/-- The configuration document of lines 167-180. -/
def notificationSettingsSeed (clock : Nat → Int) : Document :=
  [ ("key", .str "notification_settings"),
    ("value", .obj
      [ ("email_enabled", .bool true),
        ("sms_enabled", .bool false),
        ("push_enabled", .bool true),
        ("assignment_notification", .bool true),
        ("invoice_notification", .bool true),
        ("reminder_hours", .arr [.num 24, .num 2]) ]),
    ("description", .str "Configuraciones de notificaciones del sistema"),
    ("updatedAt", .date (clock 1)),
    ("updatedBy", .str "system") ]

/-- The configuration document of lines 181-192. -/
def billingSettingsSeed (clock : Nat → Int) : Document :=
  [ ("key", .str "billing_settings"),
    ("value", .obj
      [ ("currency", .str "COP"),
        ("qr_bank", .str "bancolombia"),
        ("invoice_due_days", .num 30),
        ("late_fee_percentage", .frac 2 2) ]),
    ("description", .str "Configuraciones de facturación"),
    ("updatedAt", .date (clock 2)),
    ("updatedBy", .str "system") ]

/-- The three configuration documents of lines 159-193, in order. -/
def configurationSeeds (clock : Nat → Int) : List Document :=
  [eligibilitySeed clock, notificationSettingsSeed clock, billingSettingsSeed clock]

/-- The notification of lines 197-208. -/
def notificationSeed (clock : Nat → Int) : Document :=
  [ ("userId", .str "admin@sgad.com"),
    ("type", .str "system"),
    ("title", .str "Sistema Inicializado"),
    ("message", .str "El sistema SGAD ha sido inicializado correctamente"),
    ("read", .bool false),
    ("createdAt", .date (clock 3)),
    ("metadata", .obj [("priority", .str "low"), ("category", .str "system")]) ]

/-- The audit record of lines 212-223. -/
def auditSeed (clock : Nat → Int) : Document :=
  [ ("action", .str "database_initialization"),
    ("userId", .str "system"),
    ("entityType", .str "database"),
    ("entityId", .str "sgad_nosql"),
    ("changes", .obj [("collections_created",
        .arr [.str "processing_logs", .str "notifications", .str "invoice_documents",
              .str "audit_logs", .str "system_configuration"])]),
    ("ipAddress", .str "localhost"),
    ("userAgent", .str "MongoDB Shell"),
    ("timestamp", .date (clock 4)) ]

/-- The three inserts (lines 159-223). -/
def seedCmds (clock : Nat → Int) : List Cmd :=
  [ .insertMany "system_configuration" (configurationSeeds clock),
    .insertMany "notifications" [notificationSeed clock],
    .insertOne "audit_logs" (auditSeed clock) ]

/-- The script `init.js`. -/
def script : Script :=
  { database := "sgad_nosql",
    commands := fun clock => collectionCmds ++ indexCmds ++ seedCmds clock }

end Init

/-! ## Observations used by the properties -/

namespace Mongo

/-- The database in which the collections that the calls create exist, with their
validators, and nothing else does: no secondary index, no document.  It is the
state a run leaves that stops after its `createCollection` calls. -/
def declaredState : List Cmd → DB
  | [] => []
  | .createCollection name v :: cs =>
    { name := name, validator := some v, indexes := [], docs := [] } :: declaredState cs
  | _ :: cs => declaredState cs

/-- The validator the calls declare for a collection (first `createCollection` of
that name). -/
def declaredValidator (coll : String) : List Cmd → Option Schema
  | [] => none
  | .createCollection name v :: cs => if name == coll then some v else declaredValidator coll cs
  | _ :: cs => declaredValidator coll cs

/-- The seed documents of the calls, each with the collection it is inserted in. -/
def seedDocs : List Cmd → List (String × Document)
  | [] => []
  | .insertMany coll docs :: cs => docs.map (fun d => (coll, d)) ++ seedDocs cs
  | .insertOne coll doc :: cs => (coll, doc) :: seedDocs cs
  | _ :: cs => seedDocs cs

/-- The index definitions of the calls, each with its collection. -/
def indexDefs : List Cmd → List (String × Index)
  | [] => []
  | .createIndex coll key u s :: cs => (coll, { key := key, unique := u, sparse := s }) :: indexDefs cs
  | _ :: cs => indexDefs cs

/-- Every declared property of an object that the document carries and that has an
`enum` takes one of the enumerated values. -/
def enumsOk (s : Schema) (d : Document) : Bool :=
  s.properties.all (fun p =>
    match getField p.1 d with
    | none => true
    | some v => enumOk p.2.enum v)

/-- Every declared property that the document carries and that has a `bsonType` has
a value of that type. -/
def typesOk (s : Schema) (d : Document) : Bool :=
  s.properties.all (fun p =>
    match getField p.1 d with
    | none => true
    | some v => typeOk p.2.bsonType v)

/-- The segments of a field path are declared: the first one in `properties` of
the node, the following ones in the nested `properties` of the field before. -/
def pathDeclared : Schema → List String → Bool
  | _, [] => false
  | s, [k] => (lookupProp k s.properties).isSome
  | s, k :: k2 :: ks =>
    match lookupProp k s.properties with
    | none => false
    | some sub => pathDeclared sub (k2 :: ks)

/-- Every key field of the index is declared by the validator. -/
def indexDeclared (s : Schema) (ix : Index) : Bool :=
  ix.key.all (fun f => pathDeclared s (splitPath f.1))

/-- Every index the calls create is on a collection the calls declare, and names
declared fields only. -/
def indexesWellFormed (cmds : List Cmd) : Bool :=
  (indexDefs cmds).all (fun p =>
    match declaredValidator p.1 cmds with
    | none => false
    | some s => indexDeclared s p.2)

/-- Whether the call inserts into the collection. -/
def Cmd.insertsInto (name : String) : Cmd → Bool
  | .insertMany coll _ => coll == name
  | .insertOne coll _ => coll == name
  | _ => false

/-- Number of documents whose field has the given value. -/
def countWith (field : String) (v : Value) (docs : List Document) : Nat :=
  (docs.filter (fun d =>
    match getField field d with
    | none => false
    | some x => Value.beq x v)).length

/-- Names of the collections present after and absent before, in the order of the
later state: the collections created in between. -/
def createdBetween (before after : DB) : List String :=
  (collectionNames after).filter (fun n => !(collectionNames before).contains n)

/-- Whether a run ended with a duplicate-key error of the given index. -/
def duplicateKeyOn (coll : String) (key : List (String × Int)) : Option Err → Prop
  | some (.duplicateKey c k) => c = coll ∧ k = key
  | _ => False

/-- An environment whose store rejects `createCollection` for an existing
collection. -/
def strictEnv : Env :=
  { clock := fun k => 1730000000000 + k, oidBase := 0, idempotentCreate := false }

/-- An environment whose store accepts `createCollection` for an existing
collection with the same options. -/
def lenientEnv : Env :=
  { clock := fun k => 1730000000000 + k, oidBase := 0, idempotentCreate := true }

/-- A later environment, with other identifiers and a later clock, of a store that
accepts `createCollection` for an existing collection with the same options. -/
def laterEnv : Env :=
  { clock := fun k => 1730000600000 + k, oidBase := 100, idempotentCreate := true }

end Mongo

namespace InitCertificados

open Mongo

/-- The database of the script with all its collections and indexes, holding the
given documents in `certificates`, `audit_logs` and `notifications`. -/
def stateWith (certs audits notifs : List Document) : DB :=
  [ { name := "certificates", validator := some certificatesValidator,
      indexes :=
        [ { key := [("refereeId", 1)], unique := false, sparse := false },
          { key := [("certificateType", 1)], unique := false, sparse := false },
          { key := [("status", 1)], unique := false, sparse := false },
          { key := [("expiryDate", 1)], unique := false, sparse := false },
          { key := [("certificateNumber", 1)], unique := true, sparse := true } ],
      docs := certs },
    { name := "referee_documents", validator := some refereeDocumentsValidator,
      indexes :=
        [ { key := [("refereeId", 1)], unique := false, sparse := false },
          { key := [("documentType", 1)], unique := false, sparse := false },
          { key := [("uploadedAt", -1)], unique := false, sparse := false },
          { key := [("tags", 1)], unique := false, sparse := false } ],
      docs := [] },
    { name := "processing_logs", validator := some processingLogsValidator,
      indexes :=
        [ { key := [("filename", 1)], unique := false, sparse := false },
          { key := [("status", 1)], unique := false, sparse := false },
          { key := [("processedAt", -1)], unique := false, sparse := false } ],
      docs := [] },
    { name := "audit_logs", validator := some auditLogsValidator,
      indexes :=
        [ { key := [("userId", 1)], unique := false, sparse := false },
          { key := [("action", 1)], unique := false, sparse := false },
          { key := [("timestamp", -1)], unique := false, sparse := false },
          { key := [("entityType", 1), ("entityId", 1)], unique := false, sparse := false } ],
      docs := audits },
    { name := "notifications", validator := some notificationsValidator,
      indexes :=
        [ { key := [("userId", 1)], unique := false, sparse := false },
          { key := [("read", 1)], unique := false, sparse := false },
          { key := [("createdAt", -1)], unique := false, sparse := false },
          { key := [("type", 1)], unique := false, sparse := false } ],
      docs := notifs } ]

/-- The state a complete run leaves on an empty database: every seed document with
the `_id` generated for it. -/
def seeded (env : Env) : DB :=
  stateWith [("_id", .oid (env.oid 0)) :: certificateSeed env.clock]
    [("_id", .oid (env.oid 2)) :: auditSeed env.clock]
    [("_id", .oid (env.oid 1)) :: notificationSeed env.clock]

end InitCertificados

namespace Init

open Mongo

/-- The database of the script with all its collections and indexes, holding the
given documents in `notifications`, `audit_logs` and `system_configuration`. -/
def stateWith (notifs audits configs : List Document) : DB :=
  [ { name := "processing_logs", validator := some processingLogsValidator,
      indexes :=
        [ { key := [("filename", 1)], unique := false, sparse := false },
          { key := [("status", 1)], unique := false, sparse := false },
          { key := [("processedAt", -1)], unique := false, sparse := false } ],
      docs := [] },
    { name := "notifications", validator := some notificationsValidator,
      indexes :=
        [ { key := [("userId", 1)], unique := false, sparse := false },
          { key := [("read", 1)], unique := false, sparse := false },
          { key := [("createdAt", -1)], unique := false, sparse := false },
          { key := [("type", 1)], unique := false, sparse := false } ],
      docs := notifs },
    { name := "invoice_documents", validator := some invoiceDocumentsValidator,
      indexes :=
        [ { key := [("refereeId", 1)], unique := false, sparse := false },
          { key := [("period.year", 1), ("period.month", 1)], unique := false, sparse := false },
          { key := [("status", 1)], unique := false, sparse := false },
          { key := [("generatedAt", -1)], unique := false, sparse := false } ],
      docs := [] },
    { name := "audit_logs", validator := some auditLogsValidator,
      indexes :=
        [ { key := [("userId", 1)], unique := false, sparse := false },
          { key := [("action", 1)], unique := false, sparse := false },
          { key := [("timestamp", -1)], unique := false, sparse := false },
          { key := [("entityType", 1), ("entityId", 1)], unique := false, sparse := false } ],
      docs := audits },
    { name := "system_configuration", validator := some systemConfigurationValidator,
      indexes := [ { key := [("key", 1)], unique := true, sparse := false } ],
      docs := configs } ]

/-- The configuration documents as stored, with the `_id`s generated for them. -/
def storedConfigurations (env : Env) : List Document :=
  [ ("_id", .oid (env.oid 0)) :: eligibilitySeed env.clock,
    ("_id", .oid (env.oid 1)) :: notificationSettingsSeed env.clock,
    ("_id", .oid (env.oid 2)) :: billingSettingsSeed env.clock ]

/-- The state a complete run leaves on an empty database: every seed document with
the `_id` generated for it. -/
def seeded (env : Env) : DB :=
  stateWith [("_id", .oid (env.oid 3)) :: notificationSeed env.clock]
    [("_id", .oid (env.oid 4)) :: auditSeed env.clock]
    (storedConfigurations env)

end Init

/-! ## General facts about the interpreter -/

namespace Mongo

mutual
theorem Value.beq_refl : (v : Value) → Value.beq v v = true
  | .null => by simp [Value.beq]
  | .str _ => by simp [Value.beq]
  | .num _ => by simp [Value.beq]
  | .frac _ _ => by simp [Value.beq]
  | .bool _ => by simp [Value.beq]
  | .date _ => by simp [Value.beq]
  | .oid _ => by simp [Value.beq]
  | .obj fs => by simp [Value.beq, Value.beqFields_refl fs]
  | .arr vs => by simp [Value.beq, Value.beqList_refl vs]
theorem Value.beqFields_refl : (fs : List (String × Value)) → Value.beqFields fs fs = true
  | [] => by simp [Value.beqFields]
  | (_, v) :: r => by simp [Value.beqFields, Value.beq_refl v, Value.beqFields_refl r]
theorem Value.beqList_refl : (vs : List Value) → Value.beqList vs vs = true
  | [] => by simp [Value.beqList]
  | v :: r => by simp [Value.beqList, Value.beq_refl v, Value.beqList_refl r]
end

mutual
theorem Schema.schema_beq_refl : (s : Schema) → Schema.beq s s = true
  | .mk t r p e => by
    cases e <;> simp [Schema.beq, Schema.beqProps_refl p, Value.beqList_refl]
theorem Schema.beqProps_refl : (p : List (String × Schema)) → Schema.beqProps p p = true
  | [] => by simp [Schema.beqProps]
  | (_, s) :: r => by simp [Schema.beqProps, Schema.schema_beq_refl s, Schema.beqProps_refl r]
end

theorem runCmds_append (env : Env) (a b : List Cmd) (r : Run) :
    runCmds env (a ++ b) r =
      match runCmds env a r with
      | (r2, none) => runCmds env b r2
      | (r2, some e) => (r2, some e) := by
  induction a generalizing r with
  | nil => simp [runCmds]
  | cons c cs ih =>
    simp only [List.cons_append, runCmds]
    rcases h : exec env c r with ⟨r2, _ | e⟩
    · simp [ih]
    · simp

theorem findColl_name {n : String} {db : DB} {c : Collection} (h : findColl n db = some c) :
    c.name = n := by
  induction db with
  | nil => simp [findColl] at h
  | cons x r ih =>
    simp only [findColl] at h
    split at h
    · rename_i hx
      simp only [Option.some.injEq] at h
      subst h
      simpa using hx
    · exact ih h

theorem findColl_putColl (c : Collection) (db : DB) (n : String) :
    findColl n (putColl c db) = if c.name == n then some c else findColl n db := by
  induction db with
  | nil => simp [putColl, findColl]
  | cons x r ih =>
    simp only [putColl]
    by_cases hx : x.name = c.name
    · simp only [hx, beq_self_eq_true, if_true, findColl]
      split <;> rfl
    · have hx2 : (x.name == c.name) = false := by simpa using hx
      simp only [hx2, findColl, ih]
      by_cases hn : x.name = n
      · have hc : ¬ c.name = n := fun h => hx (hn.trans h.symm)
        simp [hn, hc]
      · simp [hn]

theorem findColl_append (c : Collection) (db : DB) (n : String) :
    findColl n (db ++ [c]) =
      match findColl n db with
      | some x => some x
      | none => if c.name == n then some c else none := by
  induction db with
  | nil => simp [findColl]
  | cons x r ih =>
    simp only [List.cons_append, findColl]
    split
    · rfl
    · exact ih

theorem collOrNew_name (coll : String) (db : DB) : (collOrNew coll db).name = coll := by
  unfold collOrNew
  cases h : findColl coll db with
  | none => rfl
  | some c => simpa using findColl_name h

theorem collOrNew_docs (coll : String) (db : DB) : (collOrNew coll db).docs = docsOf coll db := by
  unfold collOrNew docsOf
  cases findColl coll db <;> rfl

theorem docsOf_putColl (c : Collection) (db : DB) (n : String) :
    docsOf n (putColl c db) = if c.name == n then c.docs else docsOf n db := by
  unfold docsOf
  rw [findColl_putColl]
  by_cases h : (c.name == n) = true
  · simp [h]
  · simp [h]

theorem docsOf_createCollection (idem : Bool) (name : String) (v : Schema) (db : DB) (n : String) :
    docsOf n (createCollection idem name v db).1 = docsOf n db := by
  unfold createCollection
  cases h : findColl name db with
  | none =>
    simp only [docsOf, findColl_append]
    cases h2 : findColl n db with
    | some x => rfl
    | none =>
      by_cases hn : (name == n) = true
      · simp [hn]
      · simp [hn]
  | some c =>
    simp only
    split <;> rfl

theorem docsOf_createIndex (coll : String) (key : List (String × Int)) (u s : Bool) (db : DB)
    (n : String) : docsOf n (createIndex coll key u s db).1 = docsOf n db := by
  unfold createIndex
  simp only
  split
  · split <;> rfl
  · split
    · rfl
    · simp only [docsOf_putColl, collOrNew_name, collOrNew_docs]
      split
      · rename_i h
        have : coll = n := by simpa using h
        rw [this]
      · rfl

end Mongo

namespace Mongo

/-- An insertion leaves the documents of a collection as they are, or adds the
stored document last to the collection it addresses. -/
theorem docsOf_insertDoc (env : Env) (coll : String) (d : Document) (r : Run) (n : String) :
    docsOf n (insertDoc env coll d r).1.db = docsOf n r.db ∨
      (coll = n ∧ (insertDoc env coll d r).2 = none ∧
        docsOf n (insertDoc env coll d r).1.db = docsOf n r.db ++ [(withId env r.oids d).1]) := by
  unfold insertDoc
  simp only
  split
  · exact Or.inl rfl
  · split
    · exact Or.inl rfl
    · simp only [docsOf_putColl, collOrNew_name, collOrNew_docs]
      by_cases h : coll = n
      · subst h
        exact Or.inr (by simp)
      · exact Or.inl (by simp [h])

theorem insertDoc_unchanged (env : Env) (coll : String) (d : Document) (r : Run)
    (h : (insertDoc env coll d r).2 ≠ none) : (insertDoc env coll d r).1.db = r.db := by
  unfold insertDoc at h ⊢
  simp only at h ⊢
  split
  · rfl
  · rename_i hacc
    simp only [hacc] at h
    split
    · rfl
    · rename_i hv
      simp [hv] at h

theorem violated_of_collide (c : Collection) (d : Document) (ix : Index) (d0 : Document)
    (hix : ix ∈ c.indexes) (hu : ix.unique = true) (hd : d0 ∈ c.docs)
    (hc : collide ix d0 d = true) : violated c d ≠ none := by
  unfold violated
  intro h
  rw [List.find?_eq_none] at h
  have h1 := h ix (List.mem_cons_of_mem _ (List.mem_filter.2 ⟨hix, by simpa using hu⟩))
  simp only [List.any_eq_true, not_exists, not_and] at h1
  exact h1 d0 hd hc

theorem insertDoc_error_of_collide (env : Env) (coll : String) (d : Document) (r : Run)
    (ix : Index) (d0 : Document) (hix : ix ∈ (collOrNew coll r.db).indexes)
    (hu : ix.unique = true) (hd : d0 ∈ (collOrNew coll r.db).docs)
    (hc : collide ix d0 (withId env r.oids d).1 = true) :
    (insertDoc env coll d r).2 ≠ none := by
  have hv := violated_of_collide _ _ ix d0 hix hu hd hc
  unfold insertDoc
  simp only
  split
  · simp
  · split
    · simp
    · rename_i h
      exact absurd h hv

theorem splitPath_id : splitPath "_id" = ["_id"] := by decide

theorem collide_idIndex (a b : Nat) (d1 d2 : Document) :
    collide idIndex (("_id", .oid a) :: d1) (("_id", .oid b) :: d2) = (a == b) := by
  simp [collide, indexed, idIndex, keyOf, keyField, splitPath_id, getPath, getField,
    Value.beqList, Value.beq]

theorem docsOf_insertDoc_other (env : Env) (coll : String) (d : Document) (r : Run) (n : String)
    (h : (coll == n) = false) : docsOf n (insertDoc env coll d r).1.db = docsOf n r.db := by
  rcases docsOf_insertDoc env coll d r n with h1 | ⟨h1, _⟩
  · exact h1
  · simp [h1] at h

theorem docsOf_insertDoc_keeps (env : Env) (coll : String) (d : Document) (r : Run) (n : String) :
    docsOf n r.db <+: docsOf n (insertDoc env coll d r).1.db := by
  rcases docsOf_insertDoc env coll d r n with h1 | ⟨_, _, h1⟩
  · rw [h1]
  · rw [h1]; exact ⟨_, rfl⟩

theorem docsOf_insertDocs_keeps (env : Env) (coll : String) (ds : List Document) (r : Run)
    (n : String) : docsOf n r.db <+: docsOf n (insertDocs env coll ds r).1.db := by
  induction ds generalizing r with
  | nil => simp [insertDocs]
  | cons d ds ih =>
    simp only [insertDocs]
    have h1 := docsOf_insertDoc_keeps env coll d r n
    rcases h : insertDoc env coll d r with ⟨r2, _ | e⟩
    · rw [h] at h1
      exact h1.trans (ih r2)
    · rw [h] at h1
      exact h1

theorem docsOf_insertDocs_other (env : Env) (coll : String) (ds : List Document) (r : Run)
    (n : String) (hn : (coll == n) = false) :
    docsOf n (insertDocs env coll ds r).1.db = docsOf n r.db := by
  induction ds generalizing r with
  | nil => simp [insertDocs]
  | cons d ds ih =>
    simp only [insertDocs]
    have h1 := docsOf_insertDoc_other env coll d r n hn
    rcases h : insertDoc env coll d r with ⟨r2, _ | e⟩
    · rw [h] at h1
      simp only
      rw [ih r2, h1]
    · rw [h] at h1
      exact h1

theorem docsOf_exec_keeps (env : Env) (c : Cmd) (r : Run) (n : String) :
    docsOf n r.db <+: docsOf n (exec env c r).1.db := by
  cases c with
  | createCollection name v => simp [exec, docsOf_createCollection]
  | createIndex coll key u s => simp [exec, docsOf_createIndex]
  | insertMany coll docs => exact docsOf_insertDocs_keeps env coll docs r n
  | insertOne coll doc => exact docsOf_insertDoc_keeps env coll doc r n

theorem docsOf_exec_other (env : Env) (c : Cmd) (r : Run) (n : String)
    (h : c.insertsInto n = false) : docsOf n (exec env c r).1.db = docsOf n r.db := by
  cases c with
  | createCollection name v => simp [exec, docsOf_createCollection]
  | createIndex coll key u s => simp [exec, docsOf_createIndex]
  | insertMany coll docs => exact docsOf_insertDocs_other env coll docs r n h
  | insertOne coll doc => exact docsOf_insertDoc_other env coll doc r n h

theorem docsOf_runCmds_keeps (env : Env) (cs : List Cmd) (r : Run) (n : String) :
    docsOf n r.db <+: docsOf n (runCmds env cs r).1.db := by
  induction cs generalizing r with
  | nil => simp [runCmds]
  | cons c cs ih =>
    simp only [runCmds]
    have h1 := docsOf_exec_keeps env c r n
    rcases h : exec env c r with ⟨r2, _ | e⟩
    · rw [h] at h1
      exact h1.trans (ih r2)
    · rw [h] at h1
      exact h1

theorem docsOf_runCmds_other (env : Env) (cs : List Cmd) (r : Run) (n : String)
    (hcs : ∀ c ∈ cs, c.insertsInto n = false) :
    docsOf n (runCmds env cs r).1.db = docsOf n r.db := by
  induction cs generalizing r with
  | nil => simp [runCmds]
  | cons c cs ih =>
    simp only [runCmds]
    have h1 := docsOf_exec_other env c r n (hcs c (List.mem_cons_self _ _))
    rcases h : exec env c r with ⟨r2, _ | e⟩
    · rw [h] at h1
      simp only
      rw [ih r2 (fun c hc => hcs c (List.mem_cons_of_mem _ hc)), h1]
    · rw [h] at h1
      exact h1

theorem collectionNames_putColl (c : Collection) (db : DB) (h : (findColl c.name db).isSome) :
    collectionNames (putColl c db) = collectionNames db := by
  induction db with
  | nil => simp [findColl] at h
  | cons x r ih =>
    simp only [putColl]
    by_cases hx : x.name = c.name
    · simp [hx, collectionNames]
    · have hx2 : (x.name == c.name) = false := by simpa using hx
      simp only [findColl, hx2, Bool.false_eq_true, if_false] at h
      simp only [hx2, Bool.false_eq_true, if_false]
      simp only [collectionNames, List.map_cons] at ih ⊢
      rw [ih h]

theorem findColl_isSome_iff (n : String) (db : DB) :
    (findColl n db).isSome ↔ n ∈ collectionNames db := by
  induction db with
  | nil => simp [findColl, collectionNames]
  | cons x r ih =>
    simp only [findColl, collectionNames, List.map_cons, List.mem_cons]
    by_cases hx : x.name = n
    · simp [hx]
    · have hx2 : (x.name == n) = false := by simpa using hx
      simp only [hx2, Bool.false_eq_true, if_false]
      simp only [collectionNames] at ih
      rw [ih]
      constructor
      · exact Or.inr
      · rintro (h | h)
        · exact absurd h.symm hx
        · exact h

theorem collectionNames_insertDoc (env : Env) (coll : String) (d : Document) (r : Run)
    (h : coll ∈ collectionNames r.db) :
    collectionNames (insertDoc env coll d r).1.db = collectionNames r.db := by
  unfold insertDoc
  simp only
  split
  · rfl
  · split
    · rfl
    · apply collectionNames_putColl
      simp only [collOrNew_name]
      exact (findColl_isSome_iff coll r.db).2 h

theorem collectionNames_insertDocs (env : Env) (coll : String) (ds : List Document) (r : Run)
    (h : coll ∈ collectionNames r.db) :
    collectionNames (insertDocs env coll ds r).1.db = collectionNames r.db := by
  induction ds generalizing r with
  | nil => simp [insertDocs]
  | cons d ds ih =>
    simp only [insertDocs]
    have h1 := collectionNames_insertDoc env coll d r h
    rcases h2 : insertDoc env coll d r with ⟨r2, _ | e⟩
    · rw [h2] at h1
      simp only
      rw [ih r2 (by rw [h1]; exact h), h1]
    · rw [h2] at h1
      exact h1

theorem collectionNames_exec_insert (env : Env) (c : Cmd) (r : Run)
    (h : ∃ n ∈ collectionNames r.db, c.insertsInto n = true) :
    collectionNames (exec env c r).1.db = collectionNames r.db := by
  obtain ⟨n, hn, hc⟩ := h
  cases c with
  | createCollection name v => simp [Cmd.insertsInto] at hc
  | createIndex coll key u s => simp [Cmd.insertsInto] at hc
  | insertMany coll docs =>
    have : coll = n := by simpa [Cmd.insertsInto] using hc
    subst this
    exact collectionNames_insertDocs env coll docs r hn
  | insertOne coll doc =>
    have : coll = n := by simpa [Cmd.insertsInto] using hc
    subst this
    exact collectionNames_insertDoc env coll doc r hn

theorem collectionNames_runCmds_inserts (env : Env) (cs : List Cmd) (r : Run)
    (h : ∀ c ∈ cs, ∃ n ∈ collectionNames r.db, c.insertsInto n = true) :
    collectionNames (runCmds env cs r).1.db = collectionNames r.db := by
  induction cs generalizing r with
  | nil => simp [runCmds]
  | cons c cs ih =>
    simp only [runCmds]
    have h1 := collectionNames_exec_insert env c r (h c (List.mem_cons_self _ _))
    rcases h2 : exec env c r with ⟨r2, _ | e⟩
    · rw [h2] at h1
      simp only
      rw [ih r2 (fun c hc => by rw [h1]; exact h c (List.mem_cons_of_mem _ hc)), h1]
    · rw [h2] at h1
      exact h1

/-- A successful insertion adds exactly the stored document, last. -/
theorem docsOf_insertDoc_ok (env : Env) (coll : String) (d : Document) (r : Run)
    (h : (insertDoc env coll d r).2 = none) :
    docsOf coll (insertDoc env coll d r).1.db = docsOf coll r.db ++ [(withId env r.oids d).1] := by
  unfold insertDoc at h ⊢
  simp only at h ⊢
  split
  · rename_i hacc
    simp [hacc] at h
  · rename_i hacc
    simp only [hacc] at h
    split
    · rename_i hv
      simp [hv] at h
    · simp [docsOf_putColl, collOrNew_name, collOrNew_docs]

/-- Calls that end with the only insertion into a collection: a complete run adds
exactly that document to it, a run that ends in an error adds none. -/
theorem runCmds_final_insert (env : Env) (pre : List Cmd) (coll : String) (doc : Document)
    (r : Run) (hpre : ∀ c ∈ pre, c.insertsInto coll = false) :
    ((runCmds env (pre ++ [.insertOne coll doc]) r).2 = none →
        ∃ k, docsOf coll (runCmds env (pre ++ [.insertOne coll doc]) r).1.db =
          docsOf coll r.db ++ [(withId env k doc).1]) ∧
      ((runCmds env (pre ++ [.insertOne coll doc]) r).2 ≠ none →
        docsOf coll (runCmds env (pre ++ [.insertOne coll doc]) r).1.db = docsOf coll r.db) := by
  rw [runCmds_append]
  have h1 := docsOf_runCmds_other env pre r coll hpre
  rcases h2 : runCmds env pre r with ⟨r2, _ | e⟩
  · rw [h2] at h1
    simp only [runCmds, exec]
    rcases h3 : insertDoc env coll doc r2 with ⟨r3, _ | e⟩
    · have h4 := docsOf_insertDoc_ok env coll doc r2 (by rw [h3])
      rw [h3] at h4
      refine ⟨fun _ => ⟨r2.oids, ?_⟩, fun h => absurd rfl h⟩
      simp only
      rw [h4, h1]
    · have h4 := insertDoc_unchanged env coll doc r2 (by rw [h3]; simp)
      rw [h3] at h4
      refine ⟨fun h => by simp at h, fun _ => ?_⟩
      simp only at h4 ⊢
      rw [h4, h1]
  · rw [h2] at h1
    refine ⟨fun h => by simp at h, fun _ => ?_⟩
    simpa using h1

end Mongo

/-! ## Runs of `init-certificados.js` -/

namespace InitCertificados

open Mongo

set_option maxRecDepth 100000
set_option maxHeartbeats 4000000

theorem cert_ddl_empty (env : Env) (k : Nat) :
    runCmds env (collectionCmds ++ indexCmds) ⟨emptyDB, k⟩ = (⟨stateWith [] [] [], k⟩, none) := by
  simp [collectionCmds, indexCmds, runCmds, exec, createCollection, findColl, emptyDB,
    createIndex, collOrNew, putColl, uniqueHolds, stateWith]

theorem cert_ddl_declared (env : Env) (k : Nat) (h : env.idempotentCreate = true) :
    runCmds env (collectionCmds ++ indexCmds) ⟨declaredState collectionCmds, k⟩ =
      (⟨stateWith [] [] [], k⟩, none) := by
  simp [collectionCmds, indexCmds, runCmds, exec, createCollection, findColl, declaredState,
    createIndex, collOrNew, putColl, uniqueHolds, stateWith, h, sameOptions, Schema.schema_beq_refl]

theorem cert_ddl_again (env : Env) (k : Nat) (h : env.idempotentCreate = true)
    (certs audits notifs : List Document) :
    runCmds env (collectionCmds ++ indexCmds) ⟨stateWith certs audits notifs, k⟩ =
      (⟨stateWith certs audits notifs, k⟩, none) := by
  simp [collectionCmds, indexCmds, runCmds, exec, createCollection, findColl, stateWith, h,
    sameOptions, Schema.schema_beq_refl, createIndex, collOrNew]

theorem cert_certificate_valid (a : Value) (clock : Nat → Int) :
    validate certificatesValidator (.obj (("_id", a) :: certificateSeed clock)) = true := rfl

theorem cert_notification_valid (a : Value) (clock : Nat → Int) :
    validate notificationsValidator (.obj (("_id", a) :: notificationSeed clock)) = true := rfl

theorem cert_audit_valid (a : Value) (clock : Nat → Int) :
    validate auditLogsValidator (.obj (("_id", a) :: auditSeed clock)) = true := rfl

theorem cert_certificate_noId (clock : Nat → Int) : hasField "_id" (certificateSeed clock) = false := rfl

theorem cert_notification_noId (clock : Nat → Int) : hasField "_id" (notificationSeed clock) = false := rfl

theorem cert_audit_noId (clock : Nat → Int) : hasField "_id" (auditSeed clock) = false := rfl

theorem cert_certificate_collide (a b : Value) (c1 c2 : Nat → Int) :
    collide { key := [("certificateNumber", 1)], unique := true, sparse := true }
      (("_id", a) :: certificateSeed c1) (("_id", b) :: certificateSeed c2) = true := rfl

theorem cert_seeds_run (env : Env) :
    runCmds env (seedCmds env.clock) ⟨stateWith [] [] [], 0⟩ = (⟨seeded env, 3⟩, none) := by
  simp [seedCmds, runCmds, exec, insertDocs, insertDoc, withId, cert_certificate_noId,
    cert_notification_noId, cert_audit_noId, accepts, violated, collOrNew, findColl, putColl, stateWith,
    seeded, cert_certificate_valid, cert_notification_valid, cert_audit_valid]

theorem cert_run_empty (env : Env) : runScript env script emptyDB = (seeded env, none) := by
  simp only [runScript, script]
  rw [runCmds_append, cert_ddl_empty]
  simp [cert_seeds_run]

theorem cert_run_declared (env : Env) (h : env.idempotentCreate = true) :
    runScript env script (declaredState collectionCmds) = (seeded env, none) := by
  simp only [runScript, script]
  rw [runCmds_append, cert_ddl_declared env 0 h]
  simp [cert_seeds_run]

theorem cert_run_declared_strict (env : Env) (h : env.idempotentCreate = false) :
    runScript env script (declaredState collectionCmds) =
      (declaredState collectionCmds, some (.namespaceExists "certificates")) := by
  simp [runScript, script, collectionCmds, runCmds, exec, createCollection, findColl,
    declaredState, h]

theorem cert_rerun_strict (e2 : Env) (h : e2.idempotentCreate = false)
    (certs audits notifs : List Document) :
    runScript e2 script (stateWith certs audits notifs) =
      (stateWith certs audits notifs, some (.namespaceExists "certificates")) := by
  simp [runScript, script, collectionCmds, runCmds, exec, createCollection, findColl,
    stateWith, h]

theorem cert_insert_again (e2 : Env) (x : Value) (c : Nat → Int)
    (certs audits notifs : List Document) :
    (insertDoc e2 "certificates" (certificateSeed e2.clock)
      ⟨stateWith ((("_id", x) :: certificateSeed c) :: certs) audits notifs, 0⟩).2 ≠ none := by
  apply insertDoc_error_of_collide e2 "certificates" _ _
    { key := [("certificateNumber", 1)], unique := true, sparse := true }
    (("_id", x) :: certificateSeed c)
  · simp [collOrNew, findColl, stateWith]
  · rfl
  · simp [collOrNew, findColl, stateWith]
  · simp [withId, cert_certificate_noId, cert_certificate_collide]

/-- A run on a state that holds the seed certificate ends in an error and changes
nothing. -/
theorem cert_rerun (e2 : Env) (x : Value) (c : Nat → Int) (certs audits notifs : List Document) :
    (runScript e2 script (stateWith ((("_id", x) :: certificateSeed c) :: certs) audits notifs)).1 =
        stateWith ((("_id", x) :: certificateSeed c) :: certs) audits notifs ∧
      (runScript e2 script
        (stateWith ((("_id", x) :: certificateSeed c) :: certs) audits notifs)).2 ≠ none := by
  cases h : e2.idempotentCreate
  · simp [cert_rerun_strict e2 h]
  · simp only [runScript, script]
    rw [runCmds_append, cert_ddl_again e2 0 h]
    simp only [seedCmds, runCmds, exec, insertDocs]
    have h1 := cert_insert_again e2 x c certs audits notifs
    have h2 := insertDoc_unchanged e2 _ _ _ h1
    rcases h3 : insertDoc e2 "certificates" (certificateSeed e2.clock)
      ⟨stateWith ((("_id", x) :: certificateSeed c) :: certs) audits notifs, 0⟩ with ⟨r2, _ | e⟩
    · simp [h3] at h1
    · rw [h3] at h2
      simpa using h2

theorem cert_rerun_seeded (env e2 : Env) :
    (runScript e2 script (seeded env)).1 = seeded env ∧
      (runScript e2 script (seeded env)).2 ≠ none :=
  cert_rerun e2 _ _ _ _ _

theorem cert_runTimes_seeded (env : Env) (es : List Env) :
    runTimes script es (seeded env) = seeded env := by
  induction es with
  | nil => rfl
  | cons e es ih => simp only [runTimes, (cert_rerun_seeded env e).1, ih]

/-- On a store that accepts `createCollection` for the existing collections, a run
on the seeded state whose first identifier is new is rejected by the unique
index on `certificateNumber`. -/
theorem cert_rerun_lenient (env e2 : Env) (h : e2.idempotentCreate = true)
    (hid : ¬ env.oid 0 = e2.oid 0) :
    (runScript e2 script (seeded env)).2 =
      some (.duplicateKey "certificates" [("certificateNumber", 1)]) := by
  simp only [runScript, script]
  rw [runCmds_append, seeded, cert_ddl_again e2 0 h]
  simp [seedCmds, runCmds, exec, insertDocs, insertDoc, withId, cert_certificate_noId, accepts,
    violated, collOrNew, findColl, stateWith, cert_certificate_valid, collide_idIndex,
    cert_certificate_collide, hid]

theorem cert_names_empty (env : Env) :
    collectionNames (runScript env script emptyDB).1 =
      ["certificates", "referee_documents", "processing_logs", "audit_logs",
       "notifications"] := by
  rw [cert_run_empty]
  rfl

theorem cert_commands_split (clock : Nat → Int) :
    script.commands clock =
      (collectionCmds ++ indexCmds ++
        [Cmd.insertMany "certificates" [certificateSeed clock],
         Cmd.insertMany "notifications" [notificationSeed clock]]) ++
        [Cmd.insertOne "audit_logs" (auditSeed clock)] := by
  simp [script, seedCmds]

theorem cert_no_audit_insert_before (clock : Nat → Int) :
    ∀ c ∈ collectionCmds ++ indexCmds ++
        [Cmd.insertMany "certificates" [certificateSeed clock],
         Cmd.insertMany "notifications" [notificationSeed clock]],
      c.insertsInto "audit_logs" = false := by
  have h : (collectionCmds ++ indexCmds ++
        [Cmd.insertMany "certificates" [certificateSeed clock],
         Cmd.insertMany "notifications" [notificationSeed clock]]).all
      (fun c => !c.insertsInto "audit_logs") = true := rfl
  intro c hc
  simpa using List.all_eq_true.1 h c hc

end InitCertificados

/-! ## Runs of `init.js` -/

namespace Init

open Mongo

set_option maxRecDepth 100000
set_option maxHeartbeats 4000000

theorem aux_ddl_empty (env : Env) (k : Nat) :
    runCmds env (collectionCmds ++ indexCmds) ⟨emptyDB, k⟩ = (⟨stateWith [] [] [], k⟩, none) := by
  simp [collectionCmds, indexCmds, runCmds, exec, createCollection, findColl, emptyDB,
    createIndex, collOrNew, putColl, uniqueHolds, stateWith]

theorem aux_ddl_declared (env : Env) (k : Nat) (h : env.idempotentCreate = true) :
    runCmds env (collectionCmds ++ indexCmds) ⟨declaredState collectionCmds, k⟩ =
      (⟨stateWith [] [] [], k⟩, none) := by
  simp [collectionCmds, indexCmds, runCmds, exec, createCollection, findColl, declaredState,
    createIndex, collOrNew, putColl, uniqueHolds, stateWith, h, sameOptions, Schema.schema_beq_refl]

theorem aux_keyIndex_holds (env : Env) :
    uniqueHolds { key := [("key", 1)], unique := true, sparse := false }
      (storedConfigurations env) = true := by
  have h1 : collide { key := [("key", 1)], unique := true, sparse := false }
      (("_id", .oid (env.oid 0)) :: eligibilitySeed env.clock)
      (("_id", .oid (env.oid 1)) :: notificationSettingsSeed env.clock) = false := rfl
  have h2 : collide { key := [("key", 1)], unique := true, sparse := false }
      (("_id", .oid (env.oid 0)) :: eligibilitySeed env.clock)
      (("_id", .oid (env.oid 2)) :: billingSettingsSeed env.clock) = false := rfl
  have h3 : collide { key := [("key", 1)], unique := true, sparse := false }
      (("_id", .oid (env.oid 1)) :: notificationSettingsSeed env.clock)
      (("_id", .oid (env.oid 2)) :: billingSettingsSeed env.clock) = false := rfl
  simp [uniqueHolds, storedConfigurations, h1, h2, h3]

theorem aux_ddl_again (env : Env) (k : Nat) (h : env.idempotentCreate = true)
    (notifs audits configs : List Document) :
    runCmds env (collectionCmds ++ indexCmds) ⟨stateWith notifs audits configs, k⟩ =
      (⟨stateWith notifs audits configs, k⟩, none) := by
  simp [collectionCmds, indexCmds, runCmds, exec, createCollection, findColl, stateWith, h,
    sameOptions, Schema.schema_beq_refl, createIndex, collOrNew]

theorem aux_eligibility_valid (a : Value) (clock : Nat → Int) :
    validate systemConfigurationValidator (.obj (("_id", a) :: eligibilitySeed clock)) = true :=
  rfl

theorem aux_notificationSettings_valid (a : Value) (clock : Nat → Int) :
    validate systemConfigurationValidator
      (.obj (("_id", a) :: notificationSettingsSeed clock)) = true := rfl

theorem aux_billingSettings_valid (a : Value) (clock : Nat → Int) :
    validate systemConfigurationValidator (.obj (("_id", a) :: billingSettingsSeed clock)) = true :=
  rfl

theorem aux_notification_valid (a : Value) (clock : Nat → Int) :
    validate notificationsValidator (.obj (("_id", a) :: notificationSeed clock)) = true := rfl

theorem aux_audit_valid (a : Value) (clock : Nat → Int) :
    validate auditLogsValidator (.obj (("_id", a) :: auditSeed clock)) = true := rfl

theorem aux_eligibility_noId (clock : Nat → Int) : hasField "_id" (eligibilitySeed clock) = false :=
  rfl

theorem aux_notificationSettings_noId (clock : Nat → Int) :
    hasField "_id" (notificationSettingsSeed clock) = false := rfl

theorem aux_billingSettings_noId (clock : Nat → Int) :
    hasField "_id" (billingSettingsSeed clock) = false := rfl

theorem aux_notification_noId (clock : Nat → Int) : hasField "_id" (notificationSeed clock) = false :=
  rfl

theorem aux_audit_noId (clock : Nat → Int) : hasField "_id" (auditSeed clock) = false := rfl

theorem aux_collide_eligibility_notificationSettings (a b : Value) (c1 c2 : Nat → Int) :
    collide { key := [("key", 1)], unique := true, sparse := false }
      (("_id", a) :: eligibilitySeed c1) (("_id", b) :: notificationSettingsSeed c2) = false := rfl

theorem aux_collide_eligibility_billingSettings (a b : Value) (c1 c2 : Nat → Int) :
    collide { key := [("key", 1)], unique := true, sparse := false }
      (("_id", a) :: eligibilitySeed c1) (("_id", b) :: billingSettingsSeed c2) = false := rfl

theorem aux_collide_notificationSettings_billingSettings (a b : Value) (c1 c2 : Nat → Int) :
    collide { key := [("key", 1)], unique := true, sparse := false }
      (("_id", a) :: notificationSettingsSeed c1) (("_id", b) :: billingSettingsSeed c2) = false :=
  rfl

theorem aux_collide_eligibility (a b : Value) (c1 c2 : Nat → Int) :
    collide { key := [("key", 1)], unique := true, sparse := false }
      (("_id", a) :: eligibilitySeed c1) (("_id", b) :: eligibilitySeed c2) = true := rfl

theorem aux_seeds_run (env : Env) :
    runCmds env (seedCmds env.clock) ⟨stateWith [] [] [], 0⟩ = (⟨seeded env, 5⟩, none) := by
  simp [seedCmds, configurationSeeds, runCmds, exec, insertDocs, insertDoc, withId,
    aux_eligibility_noId, aux_notificationSettings_noId, aux_billingSettings_noId, aux_notification_noId,
    aux_audit_noId, accepts, violated, collOrNew, findColl, putColl, stateWith, seeded,
    storedConfigurations, aux_eligibility_valid, aux_notificationSettings_valid, aux_billingSettings_valid,
    aux_notification_valid, aux_audit_valid, collide_idIndex, Env.oid,
    aux_collide_eligibility_notificationSettings, aux_collide_eligibility_billingSettings,
    aux_collide_notificationSettings_billingSettings]

theorem aux_run_empty (env : Env) :
    runScript env script emptyDB = (seeded env, none) := by
  simp only [runScript, script]
  rw [runCmds_append, aux_ddl_empty]
  simp [aux_seeds_run env]

theorem aux_run_declared (env : Env) (h : env.idempotentCreate = true) :
    runScript env script (declaredState collectionCmds) = (seeded env, none) := by
  simp only [runScript, script]
  rw [runCmds_append, aux_ddl_declared env 0 h]
  simp [aux_seeds_run env]

theorem aux_run_declared_strict (env : Env) (h : env.idempotentCreate = false) :
    runScript env script (declaredState collectionCmds) =
      (declaredState collectionCmds, some (.namespaceExists "processing_logs")) := by
  simp [runScript, script, collectionCmds, runCmds, exec, createCollection, findColl,
    declaredState, h]

theorem aux_rerun_strict (e2 : Env) (h : e2.idempotentCreate = false)
    (notifs audits configs : List Document) :
    runScript e2 script (stateWith notifs audits configs) =
      (stateWith notifs audits configs, some (.namespaceExists "processing_logs")) := by
  simp [runScript, script, collectionCmds, runCmds, exec, createCollection, findColl,
    stateWith, h]

theorem aux_insert_again (e2 : Env) (x : Value) (c : Nat → Int)
    (notifs audits configs : List Document) :
    (insertDoc e2 "system_configuration" (eligibilitySeed e2.clock)
      ⟨stateWith notifs audits ((("_id", x) :: eligibilitySeed c) :: configs), 0⟩).2 ≠ none := by
  apply insertDoc_error_of_collide e2 "system_configuration" _ _
    { key := [("key", 1)], unique := true, sparse := false }
    (("_id", x) :: eligibilitySeed c)
  · simp [collOrNew, findColl, stateWith]
  · rfl
  · simp [collOrNew, findColl, stateWith]
  · simp [withId, aux_eligibility_noId, aux_collide_eligibility]

/-- A run on a state that holds the first configuration seed ends in an error and
changes nothing. -/
theorem aux_rerun (e2 : Env) (x : Value) (c : Nat → Int) (notifs audits configs : List Document) :
    (runScript e2 script
        (stateWith notifs audits ((("_id", x) :: eligibilitySeed c) :: configs))).1 =
        stateWith notifs audits ((("_id", x) :: eligibilitySeed c) :: configs) ∧
      (runScript e2 script
        (stateWith notifs audits ((("_id", x) :: eligibilitySeed c) :: configs))).2 ≠ none := by
  cases h : e2.idempotentCreate
  · simp [aux_rerun_strict e2 h]
  · simp only [runScript, script]
    rw [runCmds_append, aux_ddl_again e2 0 h]
    simp only [seedCmds, configurationSeeds, runCmds, exec, insertDocs]
    have h1 := aux_insert_again e2 x c notifs audits configs
    have h2 := insertDoc_unchanged e2 _ _ _ h1
    rcases h3 : insertDoc e2 "system_configuration" (eligibilitySeed e2.clock)
      ⟨stateWith notifs audits ((("_id", x) :: eligibilitySeed c) :: configs), 0⟩
      with ⟨r2, _ | e⟩
    · simp [h3] at h1
    · rw [h3] at h2
      simpa using h2

theorem aux_rerun_seeded (env e2 : Env) :
    (runScript e2 script (seeded env)).1 = seeded env ∧
      (runScript e2 script (seeded env)).2 ≠ none :=
  aux_rerun e2 _ _ _ _ _

theorem aux_runTimes_seeded (env : Env) (es : List Env) :
    runTimes script es (seeded env) = seeded env := by
  induction es with
  | nil => rfl
  | cons e es ih => simp only [runTimes, (aux_rerun_seeded env e).1, ih]

/-- On a store that accepts `createCollection` for the existing collections, a run
on the seeded state whose first identifier is new is rejected by the unique
index on `key`. -/
theorem aux_rerun_lenient (env e2 : Env) (h : e2.idempotentCreate = true)
    (h0 : ¬ env.oid 0 = e2.oid 0) (h1 : ¬ env.oid 1 = e2.oid 0) (h2 : ¬ env.oid 2 = e2.oid 0) :
    (runScript e2 script (seeded env)).2 =
      some (.duplicateKey "system_configuration" [("key", 1)]) := by
  simp only [runScript, script]
  rw [runCmds_append, seeded, aux_ddl_again e2 0 h]
  simp [seedCmds, configurationSeeds, runCmds, exec, insertDocs, insertDoc, withId,
    aux_eligibility_noId, accepts, violated, collOrNew, findColl, stateWith, storedConfigurations,
    aux_eligibility_valid, collide_idIndex, aux_collide_eligibility, h0, h1, h2]

theorem aux_names_empty (env : Env) :
    collectionNames (runScript env script emptyDB).1 =
      ["processing_logs", "notifications", "invoice_documents", "audit_logs",
       "system_configuration"] := by
  simp only [runScript, script]
  rw [runCmds_append, aux_ddl_empty]
  simp only
  rw [collectionNames_runCmds_inserts]
  · rfl
  · intro c hc
    simp only [seedCmds, List.mem_cons, List.mem_singleton, List.not_mem_nil, or_false] at hc
    rcases hc with hc | hc | hc
    · exact ⟨"system_configuration", by simp [collectionNames, stateWith], by
        simp [hc, Cmd.insertsInto]⟩
    · exact ⟨"notifications", by simp [collectionNames, stateWith], by
        simp [hc, Cmd.insertsInto]⟩
    · exact ⟨"audit_logs", by simp [collectionNames, stateWith], by
        simp [hc, Cmd.insertsInto]⟩

theorem aux_commands_split (clock : Nat → Int) :
    script.commands clock =
      (collectionCmds ++ indexCmds ++
        [Cmd.insertMany "system_configuration" (configurationSeeds clock),
         Cmd.insertMany "notifications" [notificationSeed clock]]) ++
        [Cmd.insertOne "audit_logs" (auditSeed clock)] := by
  simp [script, seedCmds]

theorem aux_no_audit_insert_before (clock : Nat → Int) :
    ∀ c ∈ collectionCmds ++ indexCmds ++
        [Cmd.insertMany "system_configuration" (configurationSeeds clock),
         Cmd.insertMany "notifications" [notificationSeed clock]],
      c.insertsInto "audit_logs" = false := by
  have h : (collectionCmds ++ indexCmds ++
        [Cmd.insertMany "system_configuration" (configurationSeeds clock),
         Cmd.insertMany "notifications" [notificationSeed clock]]).all
      (fun c => !c.insertsInto "audit_logs") = true := rfl
  intro c hc
  simpa using List.all_eq_true.1 h c hc

end Init

/-! ## The properties -/

namespace Mongo

set_option maxRecDepth 100000
set_option maxHeartbeats 4000000

/-- C1. For each of the two scripts, a second run, right after a first run on an
empty database, leaves the database exactly as the first run left it: the same
collections, validators, indexes and documents. -/
theorem second_run_keeps_state (e1 e2 : Env) :
    (runScript e2 InitCertificados.script (runScript e1 InitCertificados.script emptyDB).1).1 =
        (runScript e1 InitCertificados.script emptyDB).1 ∧
      (runScript e2 Init.script (runScript e1 Init.script emptyDB).1).1 =
        (runScript e1 Init.script emptyDB).1 := by
  constructor
  · rw [InitCertificados.cert_run_empty]
    exact (InitCertificados.cert_rerun_seeded e1 e2).1
  · rw [Init.aux_run_empty]
    exact (Init.aux_rerun_seeded e1 e2).1

/-- C2, as stated, fails: on a store that accepts `createCollection` for the
collections that exist, the second run of each script reaches the seed insertion
and is rejected by the unique index on the natural key (`certificateNumber`,
`key`) with a duplicate-key error. -/
theorem second_run_hits_unique_index :
    duplicateKeyOn "certificates" [("certificateNumber", 1)]
        (runScript laterEnv InitCertificados.script
          (runScript lenientEnv InitCertificados.script emptyDB).1).2 ∧
      duplicateKeyOn "system_configuration" [("key", 1)]
        (runScript laterEnv Init.script (runScript lenientEnv Init.script emptyDB).1).2 := by
  rw [InitCertificados.cert_run_empty, Init.aux_run_empty lenientEnv,
    InitCertificados.cert_rerun_lenient lenientEnv laterEnv rfl (by decide),
    Init.aux_rerun_lenient lenientEnv laterEnv rfl (by decide) (by decide) (by decide)]
  exact ⟨⟨rfl, rfl⟩, ⟨rfl, rfl⟩⟩

/-- C2, amended. The first run on an empty database completes, and after it and
any number of further runs each natural key of a seed (`certificateNumber`
"LIC-2024-001"; `key` `eligibility_period_months`, `notification_settings`,
`billing_settings`) is held by exactly one document of its collection, the
documents of the collection satisfy the unique index on that key, and one more run
ends in an error and changes nothing. -/
theorem seed_keys_stay_single (e1 : Env) (es : List Env) :
    (runScript e1 InitCertificados.script emptyDB).2 = none ∧
      (runScript e1 Init.script emptyDB).2 = none ∧
      countWith "certificateNumber" (.str "LIC-2024-001")
        (docsOf "certificates" (runTimes InitCertificados.script (e1 :: es) emptyDB)) = 1 ∧
      countWith "key" (.str "eligibility_period_months")
        (docsOf "system_configuration" (runTimes Init.script (e1 :: es) emptyDB)) = 1 ∧
      countWith "key" (.str "notification_settings")
        (docsOf "system_configuration" (runTimes Init.script (e1 :: es) emptyDB)) = 1 ∧
      countWith "key" (.str "billing_settings")
        (docsOf "system_configuration" (runTimes Init.script (e1 :: es) emptyDB)) = 1 ∧
      uniqueHolds { key := [("certificateNumber", 1)], unique := true, sparse := true }
        (docsOf "certificates" (runTimes InitCertificados.script (e1 :: es) emptyDB)) = true ∧
      uniqueHolds { key := [("key", 1)], unique := true, sparse := false }
        (docsOf "system_configuration" (runTimes Init.script (e1 :: es) emptyDB)) = true ∧
      (∀ e : Env,
        (runScript e InitCertificados.script
            (runTimes InitCertificados.script (e1 :: es) emptyDB)).1 =
          runTimes InitCertificados.script (e1 :: es) emptyDB ∧
        (runScript e InitCertificados.script
            (runTimes InitCertificados.script (e1 :: es) emptyDB)).2 ≠ none ∧
        (runScript e Init.script (runTimes Init.script (e1 :: es) emptyDB)).1 =
          runTimes Init.script (e1 :: es) emptyDB ∧
        (runScript e Init.script (runTimes Init.script (e1 :: es) emptyDB)).2 ≠ none) := by
  have hc : runTimes InitCertificados.script (e1 :: es) emptyDB =
      InitCertificados.seeded e1 := by
    simp only [runTimes, InitCertificados.cert_run_empty, InitCertificados.cert_runTimes_seeded]
  have hi : runTimes Init.script (e1 :: es) emptyDB = Init.seeded e1 := by
    simp only [runTimes, Init.aux_run_empty e1, Init.aux_runTimes_seeded]
  rw [hc, hi, InitCertificados.cert_run_empty, Init.aux_run_empty e1]
  refine ⟨rfl, rfl, rfl, rfl, rfl, rfl, rfl, Init.aux_keyIndex_holds e1, fun e => ?_⟩
  exact ⟨(InitCertificados.cert_rerun_seeded e1 e).1, (InitCertificados.cert_rerun_seeded e1 e).2,
    (Init.aux_rerun_seeded e1 e).1, (Init.aux_rerun_seeded e1 e).2⟩

/-- C3. After a run of `init-certificados.js` on an empty database, `certificates`
has the unique sparse index on `certificateNumber` and holds exactly one document,
with `certificateNumber` "LIC-2024-001" and `status` "active"; `notifications`
holds exactly one document, of `type` "system"; `audit_logs` holds exactly one
document, with `action` "database_initialization" and `entityId`
"certificados_db". -/
theorem certificates_store_scenario (env : Env) :
    ({ key := [("certificateNumber", 1)], unique := true, sparse := true } : Index) ∈
        indexesOf "certificates" (runScript env InitCertificados.script emptyDB).1 ∧
      (∃ d, docsOf "certificates" (runScript env InitCertificados.script emptyDB).1 = [d] ∧
        getField "certificateNumber" d = some (.str "LIC-2024-001") ∧
        getField "status" d = some (.str "active")) ∧
      (∃ d, docsOf "notifications" (runScript env InitCertificados.script emptyDB).1 = [d] ∧
        getField "type" d = some (.str "system")) ∧
      (∃ d, docsOf "audit_logs" (runScript env InitCertificados.script emptyDB).1 = [d] ∧
        getField "action" d = some (.str "database_initialization") ∧
        getField "entityId" d = some (.str "certificados_db")) := by
  rw [InitCertificados.cert_run_empty]
  refine ⟨?_, ⟨_, rfl, rfl, rfl⟩, ⟨_, rfl, rfl⟩, ⟨_, rfl, rfl, rfl⟩⟩
  simp [indexesOf, findColl, InitCertificados.seeded, InitCertificados.stateWith]

/-- C4. After a run of `init.js` on an empty database, `system_configuration` holds
exactly three documents, their keys are `eligibility_period_months`,
`notification_settings` and `billing_settings`, pairwise distinct, and the
collection has the unique index on `key`, which the three documents satisfy. -/
theorem auxiliary_store_scenario (env : Env) :
    (docsOf "system_configuration" (runScript env Init.script emptyDB).1).length = 3 ∧
      (docsOf "system_configuration" (runScript env Init.script emptyDB).1).map (getField "key") =
        [some (.str "eligibility_period_months"), some (.str "notification_settings"),
         some (.str "billing_settings")] ∧
      ["eligibility_period_months", "notification_settings", "billing_settings"].Nodup ∧
      ({ key := [("key", 1)], unique := true, sparse := false } : Index) ∈
        indexesOf "system_configuration" (runScript env Init.script emptyDB).1 ∧
      uniqueHolds { key := [("key", 1)], unique := true, sparse := false }
        (docsOf "system_configuration" (runScript env Init.script emptyDB).1) = true := by
  rw [Init.aux_run_empty env]
  have hd : docsOf "system_configuration" (Init.seeded env) = Init.storedConfigurations env := by
    simp [docsOf, findColl, Init.seeded, Init.stateWith]
  rw [hd]
  refine ⟨rfl, rfl, by decide, ?_, Init.aux_keyIndex_holds env⟩
  simp [indexesOf, findColl, Init.seeded, Init.stateWith]

/-- C5. After a run on an empty database the collections are, in creation order,
`certificates`, `referee_documents`, `processing_logs`, `audit_logs`,
`notifications` for `init-certificados.js` and `processing_logs`, `notifications`,
`invoice_documents`, `audit_logs`, `system_configuration` for `init.js`: five
names each, pairwise distinct. -/
theorem collection_sets (env : Env) :
    collectionNames (runScript env InitCertificados.script emptyDB).1 =
        ["certificates", "referee_documents", "processing_logs", "audit_logs",
         "notifications"] ∧
      collectionNames (runScript env Init.script emptyDB).1 =
        ["processing_logs", "notifications", "invoice_documents", "audit_logs",
         "system_configuration"] ∧
      (collectionNames (runScript env InitCertificados.script emptyDB).1).length = 5 ∧
      (collectionNames (runScript env Init.script emptyDB).1).length = 5 ∧
      (collectionNames (runScript env InitCertificados.script emptyDB).1).Nodup ∧
      (collectionNames (runScript env Init.script emptyDB).1).Nodup := by
  have h1 := InitCertificados.cert_names_empty env
  have h2 := Init.aux_names_empty env
  rw [h1, h2]
  exact ⟨rfl, rfl, rfl, rfl, by decide, by decide⟩

/-- C6, as stated, fails: on a store that rejects `createCollection` for a
collection that exists, a run on the database that holds the script's collections
and nothing else ends at its first call with `NamespaceExists` and leaves the
database as it was, without index and without seed document. -/
theorem interrupted_run_not_completed :
    runScript strictEnv InitCertificados.script
        (declaredState (InitCertificados.script.commands strictEnv.clock)) =
        (declaredState (InitCertificados.script.commands strictEnv.clock),
          some (.namespaceExists "certificates")) ∧
      runScript strictEnv Init.script (declaredState (Init.script.commands strictEnv.clock)) =
        (declaredState (Init.script.commands strictEnv.clock),
          some (.namespaceExists "processing_logs")) ∧
      indexesOf "certificates"
        (declaredState (InitCertificados.script.commands strictEnv.clock)) = [] ∧
      docsOf "certificates"
        (declaredState (InitCertificados.script.commands strictEnv.clock)) = [] ∧
      indexesOf "system_configuration"
        (declaredState (Init.script.commands strictEnv.clock)) = [] ∧
      docsOf "system_configuration" (declaredState (Init.script.commands strictEnv.clock)) = [] :=
  ⟨InitCertificados.cert_run_declared_strict strictEnv rfl, Init.aux_run_declared_strict strictEnv rfl,
    rfl, rfl, rfl, rfl⟩

/-- C6, amended. On a store that accepts `createCollection` for a collection that
exists with the same options, a run on the database left by the `createCollection`
calls alone (the script's collections, no index, no seed document) completes
without error and ends in the state of a run on an empty database. -/
theorem interrupted_run_recovery (env : Env) (h : env.idempotentCreate = true) :
    (runCmds env InitCertificados.collectionCmds ⟨emptyDB, 0⟩).1.db =
        declaredState (InitCertificados.script.commands env.clock) ∧
      (runCmds env Init.collectionCmds ⟨emptyDB, 0⟩).1.db =
        declaredState (Init.script.commands env.clock) ∧
      runScript env InitCertificados.script
          (declaredState (InitCertificados.script.commands env.clock)) =
        runScript env InitCertificados.script emptyDB ∧
      (runScript env InitCertificados.script
          (declaredState (InitCertificados.script.commands env.clock))).2 = none ∧
      runScript env Init.script (declaredState (Init.script.commands env.clock)) =
        runScript env Init.script emptyDB ∧
      (runScript env Init.script (declaredState (Init.script.commands env.clock))).2 = none := by
  have h1 : declaredState (InitCertificados.script.commands env.clock) =
      declaredState InitCertificados.collectionCmds := rfl
  have h2 : declaredState (Init.script.commands env.clock) =
      declaredState Init.collectionCmds := rfl
  rw [h1, h2, InitCertificados.cert_run_declared env h, Init.aux_run_declared env h,
    InitCertificados.cert_run_empty, Init.aux_run_empty env]
  refine ⟨?_, ?_, rfl, rfl, rfl, rfl⟩
  · simp [InitCertificados.collectionCmds, runCmds, exec, createCollection, findColl, emptyDB,
      declaredState]
  · simp [Init.collectionCmds, runCmds, exec, createCollection, findColl, emptyDB,
      declaredState]

/-- Witness of the amended C6 at a store that accepts `createCollection` for
existing collections. -/
theorem interrupted_run_recovery_witness :
    lenientEnv.idempotentCreate = true ∧
      (runScript lenientEnv InitCertificados.script
          (declaredState (InitCertificados.script.commands lenientEnv.clock))).2 = none ∧
      (runScript lenientEnv Init.script
          (declaredState (Init.script.commands lenientEnv.clock))).2 = none :=
  ⟨rfl, (interrupted_run_recovery lenientEnv rfl).2.2.2.1,
    (interrupted_run_recovery lenientEnv rfl).2.2.2.2.2⟩

theorem required_of_ok (s : Schema) (d : Document)
    (h : requiredOk s.required (.obj d) = true) : ∀ f ∈ s.required, hasField f d = true := by
  simpa [requiredOk] using h

/-- C7. Every seed document of either script satisfies the validator the same
script declares for its collection: the validator exists, the document has every
`required` field, every field with an `enum` takes an enumerated value, every
field with a `bsonType` has a value of that type, and the document as stored,
with its generated `_id`, passes the validator, so that the validator never
rejects the insertion. -/
theorem seeds_satisfy_validators (clock : Nat → Int) (cmds : List Cmd)
    (hcmds : cmds = InitCertificados.script.commands clock ∨ cmds = Init.script.commands clock)
    (coll : String) (d : Document) (hd : (coll, d) ∈ seedDocs cmds) :
    ∃ s, declaredValidator coll cmds = some s ∧
      (∀ f ∈ s.required, hasField f d = true) ∧
      enumsOk s d = true ∧ typesOk s d = true ∧
      ∀ (env : Env) (k : Nat), validate s (.obj (withId env k d).1) = true := by
  rcases hcmds with hcmds | hcmds
  · subst hcmds
    have hs : seedDocs (InitCertificados.script.commands clock) =
        [("certificates", InitCertificados.certificateSeed clock),
         ("notifications", InitCertificados.notificationSeed clock),
         ("audit_logs", InitCertificados.auditSeed clock)] := rfl
    rw [hs] at hd
    simp only [List.mem_cons, List.mem_singleton, List.not_mem_nil, or_false,
      Prod.mk.injEq] at hd
    rcases hd with ⟨rfl, rfl⟩ | ⟨rfl, rfl⟩ | ⟨rfl, rfl⟩
    · exact ⟨InitCertificados.certificatesValidator, rfl, required_of_ok _ _ rfl, rfl, rfl,
        fun _ _ => rfl⟩
    · exact ⟨InitCertificados.notificationsValidator, rfl, required_of_ok _ _ rfl, rfl, rfl,
        fun _ _ => rfl⟩
    · exact ⟨InitCertificados.auditLogsValidator, rfl, required_of_ok _ _ rfl, rfl, rfl,
        fun _ _ => rfl⟩
  · subst hcmds
    have hs : seedDocs (Init.script.commands clock) =
        [("system_configuration", Init.eligibilitySeed clock),
         ("system_configuration", Init.notificationSettingsSeed clock),
         ("system_configuration", Init.billingSettingsSeed clock),
         ("notifications", Init.notificationSeed clock),
         ("audit_logs", Init.auditSeed clock)] := rfl
    rw [hs] at hd
    simp only [List.mem_cons, List.mem_singleton, List.not_mem_nil, or_false,
      Prod.mk.injEq] at hd
    rcases hd with ⟨rfl, rfl⟩ | ⟨rfl, rfl⟩ | ⟨rfl, rfl⟩ | ⟨rfl, rfl⟩ | ⟨rfl, rfl⟩
    · exact ⟨Init.systemConfigurationValidator, rfl, required_of_ok _ _ rfl, rfl, rfl, fun _ _ => rfl⟩
    · exact ⟨Init.systemConfigurationValidator, rfl, required_of_ok _ _ rfl, rfl, rfl, fun _ _ => rfl⟩
    · exact ⟨Init.systemConfigurationValidator, rfl, required_of_ok _ _ rfl, rfl, rfl, fun _ _ => rfl⟩
    · exact ⟨Init.notificationsValidator, rfl, required_of_ok _ _ rfl, rfl, rfl, fun _ _ => rfl⟩
    · exact ⟨Init.auditLogsValidator, rfl, required_of_ok _ _ rfl, rfl, rfl, fun _ _ => rfl⟩

/-- Witness of C7 at the seed certificate. -/
theorem seeds_satisfy_validators_witness :
    ("certificates", InitCertificados.certificateSeed (fun _ => 0)) ∈
        seedDocs (InitCertificados.script.commands (fun _ => 0)) ∧
      ∃ s, declaredValidator "certificates" (InitCertificados.script.commands (fun _ => 0)) =
          some s ∧
        (∀ f ∈ s.required, hasField f (InitCertificados.certificateSeed (fun _ => 0)) = true) ∧
        enumsOk s (InitCertificados.certificateSeed (fun _ => 0)) = true ∧
        typesOk s (InitCertificados.certificateSeed (fun _ => 0)) = true ∧
        ∀ (env : Env) (k : Nat),
          validate s (.obj (withId env k (InitCertificados.certificateSeed (fun _ => 0))).1) =
            true :=
  ⟨List.mem_cons_self _ _,
    seeds_satisfy_validators (fun _ => 0) _ (Or.inl rfl) "certificates" _
      (List.mem_cons_self _ _)⟩

/-- C8. Whatever the database holds before, a run of either script keeps every
document of every collection: the documents a collection held before the run are
the first documents it holds after, unchanged and in the same order. -/
theorem create_only_frame (env : Env) (db : DB) (name : String) :
    docsOf name db <+: docsOf name (runScript env InitCertificados.script db).1 ∧
      docsOf name db <+: docsOf name (runScript env Init.script db).1 :=
  ⟨docsOf_runCmds_keeps env _ ⟨db, 0⟩ name, docsOf_runCmds_keeps env _ ⟨db, 0⟩ name⟩

/-- C9, as stated, fails: when the five collections of `init-certificados.js` exist
before the run, on a store that accepts `createCollection` for them the run
completes, creates no collection, and yet its audit record lists the five
collections as created; on a store that rejects the call the run emits no audit
record at all. -/
theorem audit_record_lists_collections_not_created :
    (runScript lenientEnv InitCertificados.script
        (declaredState (InitCertificados.script.commands lenientEnv.clock))).2 = none ∧
      createdBetween (declaredState (InitCertificados.script.commands lenientEnv.clock))
        (runScript lenientEnv InitCertificados.script
          (declaredState (InitCertificados.script.commands lenientEnv.clock))).1 = [] ∧
      (docsOf "audit_logs"
        (runScript lenientEnv InitCertificados.script
          (declaredState (InitCertificados.script.commands lenientEnv.clock))).1).map
        (fun d => getPath ["changes", "collections_created"] (.obj d)) =
        [some (.arr [.str "certificates", .str "referee_documents", .str "processing_logs",
          .str "audit_logs", .str "notifications"])] ∧
      docsOf "audit_logs"
        (runScript strictEnv InitCertificados.script
          (declaredState (InitCertificados.script.commands strictEnv.clock))).1 = [] := by
  have h1 : declaredState (InitCertificados.script.commands lenientEnv.clock) =
      declaredState InitCertificados.collectionCmds := rfl
  have h2 : declaredState (InitCertificados.script.commands strictEnv.clock) =
      declaredState InitCertificados.collectionCmds := rfl
  rw [h1, h2, InitCertificados.cert_run_declared lenientEnv rfl,
    InitCertificados.cert_run_declared_strict strictEnv rfl]
  exact ⟨rfl, by decide, rfl, rfl⟩

/-- C9, amended. A run of either script that completes adds exactly one document
to `audit_logs`; its `action` is "database_initialization" and its
`changes.collections_created` is the fixed list of the script's five collections,
the collections a run creates on an empty database, in creation order, whatever
the run itself created.  A run that ends in an error adds no document to
`audit_logs`. -/
theorem audit_record_of_run (env : Env) (s : Script)
    (hs : s = InitCertificados.script ∨ s = Init.script) (db : DB) :
    ((runScript env s db).2 = none →
        ∃ d, docsOf "audit_logs" (runScript env s db).1 = docsOf "audit_logs" db ++ [d] ∧
          getField "action" d = some (.str "database_initialization") ∧
          getPath ["changes", "collections_created"] (.obj d) =
            some (.arr ((collectionNames (runScript env s emptyDB).1).map Value.str))) ∧
      ((runScript env s db).2 ≠ none →
        docsOf "audit_logs" (runScript env s db).1 = docsOf "audit_logs" db) := by
  rcases hs with hs | hs
  · subst hs
    rw [InitCertificados.cert_names_empty]
    simp only [runScript]
    rw [InitCertificados.cert_commands_split]
    have h := runCmds_final_insert env _ "audit_logs" (InitCertificados.auditSeed env.clock)
      ⟨db, 0⟩ (InitCertificados.cert_no_audit_insert_before env.clock)
    refine ⟨fun hrun => ?_, h.2⟩
    obtain ⟨k, hk⟩ := h.1 hrun
    exact ⟨_, hk, rfl, rfl⟩
  · subst hs
    rw [Init.aux_names_empty]
    simp only [runScript]
    rw [Init.aux_commands_split]
    have h := runCmds_final_insert env _ "audit_logs" (Init.auditSeed env.clock)
      ⟨db, 0⟩ (Init.aux_no_audit_insert_before env.clock)
    refine ⟨fun hrun => ?_, h.2⟩
    obtain ⟨k, hk⟩ := h.1 hrun
    exact ⟨_, hk, rfl, rfl⟩

/-- Witness of the amended C9: a complete run of `init.js` on an empty database. -/
theorem audit_record_of_run_witness :
    (Init.script = InitCertificados.script ∨ Init.script = Init.script) ∧
      (runScript lenientEnv Init.script emptyDB).2 = none ∧
      ∃ d, docsOf "audit_logs" (runScript lenientEnv Init.script emptyDB).1 =
          docsOf "audit_logs" emptyDB ++ [d] ∧
        getField "action" d = some (.str "database_initialization") ∧
        getPath ["changes", "collections_created"] (.obj d) =
          some (.arr ((collectionNames (runScript lenientEnv Init.script emptyDB).1).map
            Value.str)) :=
  ⟨Or.inr rfl, by rw [Init.aux_run_empty lenientEnv],
    (audit_record_of_run lenientEnv Init.script (Or.inr rfl) emptyDB).1
      (by rw [Init.aux_run_empty lenientEnv])⟩

/-- C10. In both scripts every index is created on a collection the script
declares, and every field of its key is declared in the `properties` of that
collection's validator, a dotted path segment by segment through the nested
`properties`. -/
theorem indexes_name_declared_fields (clock : Nat → Int) :
    indexesWellFormed (InitCertificados.script.commands clock) = true ∧
      indexesWellFormed (Init.script.commands clock) = true ∧
      (indexDefs (InitCertificados.script.commands clock)).length = 20 ∧
      (indexDefs (Init.script.commands clock)).length = 16 :=
  ⟨rfl, rfl, rfl, rfl⟩

end Mongo
